import Mathlib

/-!
Verification of the support-chat agent core (scenario engine, turn pipeline
v1.0, SGR converter, conversation memory) against its specification.

The Python source is shallowly embedded: pure functions become Lean
functions, LLM calls become oracle parameters (a function supplying the
model's parsed output), Redis becomes an explicit optional store value, and
Python's JSON-shaped dynamic values become the inductive `PyVal`.
-/

namespace ChatCore

/-- Python JSON-shaped dynamic values as they flow through the pipeline
(`Any` in the source). Dicts keep insertion order, as Python dicts do;
keys are unique in every dict the pipeline builds. -/
inductive PyVal where
  | pnone
  | pbool (b : Bool)
  | pint (n : Int)
  | pstr (s : String)
  | plist (xs : List PyVal)
  | pdict (kvs : List (String × PyVal))
deriving Repr, Inhabited

/-- Python truthiness (`bool(v)`) for the values above. -/
def pyTruthy : PyVal → Bool
  | .pnone => false
  | .pbool b => b
  | .pint n => n != 0
  | .pstr s => s != ""
  | .plist xs => !xs.isEmpty
  | .pdict kvs => !kvs.isEmpty

mutual

/-- Python `repr(v)` for the values above (used by `str` on containers). -/
def pyRepr : PyVal → String
  | .pnone => "None"
  | .pbool true => "True"
  | .pbool false => "False"
  | .pint n => toString n
  | .pstr s => "'" ++ s ++ "'"
  | .plist xs => "[" ++ pyReprList xs ++ "]"
  | .pdict kvs => "\x7b" ++ pyReprKVs kvs ++ "\x7d"

def pyReprList : List PyVal → String
  | [] => ""
  | [x] => pyRepr x
  | x :: xs => pyRepr x ++ ", " ++ pyReprList xs

def pyReprKVs : List (String × PyVal) → String
  | [] => ""
  | [(k, v)] => "'" ++ k ++ "': " ++ pyRepr v
  | (k, v) :: kvs => "'" ++ k ++ "': " ++ pyRepr v ++ ", " ++ pyReprKVs kvs

end

/-- Python `str(v)`: strings unquoted, containers via `repr`. -/
def pyStrOf : PyVal → String
  | .pstr s => s
  | v => pyRepr v

/-- Characters removed by Python `str.strip()` (ASCII whitespace). -/
def isPyWs (c : Char) : Bool :=
  c == ' ' || c == '\t' || c == '\n' || c == '\r' || c == '\x0b' || c == '\x0c'

/-- Python `str.strip()`. -/
def pyStrip (s : String) : String :=
  String.mk (((s.toList.dropWhile isPyWs).reverse.dropWhile isPyWs).reverse)

/-- Lower-casing as Python `str.lower()` acts on the ASCII and Cyrillic
letters used by the engine heuristics. -/
def ruLowerChar (c : Char) : Char :=
  if c.toNat ≥ 0x41 ∧ c.toNat ≤ 0x5A then Char.ofNat (c.toNat + 32)
  else if c.toNat ≥ 0x410 ∧ c.toNat ≤ 0x42F then Char.ofNat (c.toNat + 0x20)
  else if c.toNat = 0x401 then Char.ofNat 0x451
  else c

def ruLower (s : String) : String := String.mk (s.toList.map ruLowerChar)

def startsWithChars : List Char → List Char → Bool
  | [], _ => true
  | _ :: _, [] => false
  | a :: as, b :: bs => a == b && startsWithChars as bs

/-- `needle` occurs as a contiguous run inside `hay` (Python `in`). -/
def hasSubChars (needle : List Char) : List Char → Bool
  | [] => needle.isEmpty
  | c :: rest => startsWithChars needle (c :: rest) || hasSubChars needle rest

def containsSub (hay needle : String) : Bool := hasSubChars needle.toList hay.toList

/-! ## Conversation memory data model (chat_app/schemas.py, chat_app/memory.py) -/

inductive MessageRole where
  | user | assistant | system
deriving Repr, DecidableEq, Inhabited

structure HistoryItem where
  role : MessageRole
  content : String
  /-- serialized UTC timestamp; opaque for the claims here -/
  timestamp : String
deriving Repr, DecidableEq, Inhabited

/-- `UserProfile`. After the `get_user_data` backfill the fields may hold
arbitrary tool-returned values, hence `PyVal`; `none` is Python `None`. -/
structure UserProfile where
  name : Option PyVal := none
  age : Option PyVal := none
deriving Repr, Inhabited

structure ConversationState where
  conversation_id : String
  message_index : Int := 0
  user_profile : UserProfile := {}
  summary : String := ""
  scenario_runs : List PyVal := []
deriving Repr, Inhabited

/-- `ConversationState(conversation_id=cid)` with pydantic defaults. -/
def freshState (cid : String) : ConversationState := { conversation_id := cid }

/-- `RedisConversationMemory.get_state`. `store` maps a conversation id to
the raw string at key `conv:{id}:state` (none = key absent); `dec` models
`json.loads` + `ConversationState.model_validate`, returning `none` whenever
either raises. An empty stored string is falsy in Python (`if not raw`). -/
def getState (store : String → Option String) (dec : String → Option ConversationState)
    (cid : String) : ConversationState :=
  match store cid with
  | none => freshState cid
  | some raw =>
    if raw = "" then freshState cid
    else
      match dec raw with
      | none => freshState cid
      | some st => st

/-- `RedisConversationMemory.get_history`: each entry of the stored list is
deserialized; entries that fail (`decItem` = none) are skipped. -/
def getHistory (decItem : String → Option HistoryItem) (rawItems : List String) :
    List HistoryItem :=
  rawItems.filterMap decItem

/-! ## Judge/revise loop of the v1.0 turn pipeline (graph_pipeline.py) -/

inductive JudgeAction where
  | pass | revise
deriving Repr, DecidableEq

/-- `judge_router`: `true` means follow the `revise` edge. -/
def judgeRouter (action : JudgeAction) (attempts : Nat) : Bool :=
  action == JudgeAction.revise && attempts < 2

inductive TurnEnd where
  | persistAnswer
deriving Repr, DecidableEq

/-- The `judge_evaluate → (judge_revise → judge_evaluate)* → persist_answer`
loop. `decideAt k` is the judge decision of the (k+1)-th `judge_evaluate`
call; each `judge_revise` pass increments `judge_attempts` by one exactly as
the node does. Returns (number of judge_revise invocations, final
judge_attempts, terminal node). -/
def judgeLoop (decideAt : Nat → JudgeAction) (evalIdx attempts : Nat) :
    Nat × Nat × TurnEnd :=
  if h : judgeRouter (decideAt evalIdx) attempts = true then
    let r := judgeLoop decideAt (evalIdx + 1) (attempts + 1)
    (r.1 + 1, r.2)
  else
    (0, attempts, TurnEnd.persistAnswer)
termination_by 2 - attempts
decreasing_by
  simp only [judgeRouter, Bool.and_eq_true, decide_eq_true_eq] at h
  omega

lemma judgeLoop_stop (decideAt : Nat → JudgeAction) (evalIdx attempts : Nat)
    (h : judgeRouter (decideAt evalIdx) attempts = false) :
    judgeLoop decideAt evalIdx attempts = (0, attempts, TurnEnd.persistAnswer) := by
  rw [judgeLoop]
  simp [h]

lemma judgeLoop_step (decideAt : Nat → JudgeAction) (evalIdx attempts : Nat)
    (h : judgeRouter (decideAt evalIdx) attempts = true) :
    judgeLoop decideAt evalIdx attempts =
      ((judgeLoop decideAt (evalIdx + 1) (attempts + 1)).1 + 1,
       (judgeLoop decideAt (evalIdx + 1) (attempts + 1)).2) := by
  rw [judgeLoop]
  simp [h]

lemma judgeLoop_spec (decideAt : Nat → JudgeAction) :
    ∀ (fuel evalIdx attempts : Nat), 2 - attempts ≤ fuel →
      (judgeLoop decideAt evalIdx attempts).2.1
          = attempts + (judgeLoop decideAt evalIdx attempts).1 ∧
        attempts + (judgeLoop decideAt evalIdx attempts).1 ≤ max attempts 2 ∧
        (judgeLoop decideAt evalIdx attempts).2.2 = TurnEnd.persistAnswer := by
  intro fuel
  induction fuel with
  | zero =>
    intro evalIdx attempts hf
    have h2 : ¬ attempts < 2 := by omega
    have hr : judgeRouter (decideAt evalIdx) attempts = false := by
      simp [judgeRouter, h2]
    rw [judgeLoop_stop _ _ _ hr]
    exact ⟨(Nat.add_zero attempts).symm, by simpa using le_max_left attempts 2, rfl⟩
  | succ n ih =>
    intro evalIdx attempts hf
    by_cases hr : judgeRouter (decideAt evalIdx) attempts = true
    · have hlt : attempts < 2 := by
        simp only [judgeRouter, Bool.and_eq_true, decide_eq_true_eq] at hr
        exact hr.2
      rw [judgeLoop_step _ _ _ hr]
      obtain ⟨ha, hb, hc⟩ := ih (evalIdx + 1) (attempts + 1) (by omega)
      dsimp only
      refine ⟨by omega, by omega, hc⟩
    · rw [judgeLoop_stop _ _ _ (by simpa using hr)]
      exact ⟨(Nat.add_zero attempts).symm, by simpa using le_max_left attempts 2, rfl⟩

/-- C1: in any turn of pipeline v1.0, `judge_revise` runs at most 2 times:
the revise edge is taken only when the judge decision is `revise` and
`judge_attempts < 2`; every `judge_revise` pass increments `judge_attempts`
by exactly 1 (final attempts = number of revise invocations, starting from
0); and the loop always terminates at `persist_answer`. -/
theorem C1_judge_revise_bounded (decideAt : Nat → JudgeAction) :
    (∀ a att, judgeRouter a att = true ↔ (a = JudgeAction.revise ∧ att < 2)) ∧
    (judgeLoop decideAt 0 0).1 ≤ 2 ∧
    (judgeLoop decideAt 0 0).2.1 = (judgeLoop decideAt 0 0).1 ∧
    (judgeLoop decideAt 0 0).2.2 = TurnEnd.persistAnswer := by
  have h := judgeLoop_spec decideAt 2 0 0 (by omega)
  refine ⟨?_, by omega, by omega, h.2.2⟩
  intro a att
  simp [judgeRouter]

theorem C1_judge_revise_bounded_witness :
    judgeRouter JudgeAction.revise 1 = true ∧ judgeRouter JudgeAction.revise 2 = false := by
  constructor
  · exact ((C1_judge_revise_bounded (fun _ => JudgeAction.pass)).1
      JudgeAction.revise 1).mpr ⟨rfl, by omega⟩
  · by_contra hc
    have := ((C1_judge_revise_bounded (fun _ => JudgeAction.pass)).1
      JudgeAction.revise 2).mp (by revert hc; cases h : judgeRouter JudgeAction.revise 2 <;> simp)
    omega

/-- C9: durable-memory reads tolerate corruption. `get_state` returns the
fresh `ConversationState` for the requested id (message_index 0, empty
profile and summary) whenever the stored entry is absent, empty or fails to
deserialize; `get_history` keeps exactly the deserializable items, in their
stored order. -/
theorem C9_memory_corruption_tolerant
    (store : String → Option String) (dec : String → Option ConversationState)
    (cid : String) (decItem : String → Option HistoryItem) (rawItems : List String) :
    ((store cid = none ∨ store cid = some "" ∨
        (∃ raw, store cid = some raw ∧ raw ≠ "" ∧ dec raw = none)) →
      getState store dec cid =
        { conversation_id := cid, message_index := 0,
          user_profile := { name := none, age := none }, summary := "",
          scenario_runs := [] }) ∧
    getHistory decItem rawItems =
      (rawItems.filter (fun r => (decItem r).isSome)).map
        (fun r => (decItem r).getD default) := by
  constructor
  · rintro (h | h | ⟨raw, hs, hne, hd⟩)
    · simp [getState, h, freshState]
    · simp [getState, h, freshState]
    · simp [getState, hs, hne, hd, freshState]
  · induction rawItems with
    | nil => rfl
    | cons r rest ih =>
      cases h : decItem r with
      | none => simpa [getHistory, List.filterMap_cons, h] using ih
      | some it => simpa [getHistory, List.filterMap_cons, h] using ih

theorem C9_memory_corruption_tolerant_witness :
    getState (fun _ => some "garbage") (fun _ => none) "c1" =
      { conversation_id := "c1", message_index := 0,
        user_profile := { name := none, age := none }, summary := "",
        scenario_runs := [] } :=
  (C9_memory_corruption_tolerant (fun _ => some "garbage") (fun _ => none) "c1"
      (fun _ => none) []).1
    (Or.inr (Or.inr ⟨"garbage", rfl, by decide, rfl⟩))

/-! ## API-key rotation (chat_app/runtime_config.py and
chat_app/sgr/langchain_chain/pipeline.py `_call_llm_step`) -/

/-- The rotation counter as held by Redis: `some n` when the durable store
is reachable and holds `n` (`get` of an absent key is read as 0 by the
source, which we fold into the initial value), `none` when Redis is
unavailable. -/
abbrev RotationStore := Option Nat

/-- `get_openai_api_key_rotation_index`: falls back to 0 when Redis is
unavailable. -/
def rotationIndex (store : RotationStore) : Nat := store.getD 0

/-- `mark_openai_api_key_rate_limited`: no-op when at most one key is
configured or Redis is unavailable; otherwise `INCR` of the counter. -/
def markRateLimited (keys : List String) (store : RotationStore) : RotationStore :=
  if keys.length ≤ 1 then store
  else
    match store with
    | none => none
    | some n => some (n + 1)

/-- `get_effective_openai_api_key`: `keys[counter mod N]`, none if no keys. -/
def effectiveKey (keys : List String) (store : RotationStore) : Option String :=
  if keys.isEmpty then none
  else keys[rotationIndex store % keys.length]?

/-- Outcome of one LLM attempt inside `_call_llm_step`, indexed by attempt
number: success with raw text, a `RateLimitError`, or an `APIStatusError`
with the given status code. -/
inductive LlmOutcome where
  | success (text : String)
  | rateLimited
  | apiError (status : Nat)
deriving Repr, DecidableEq

inductive StepResult where
  | ok (text : String)
  | raisedRateLimit
  | raisedApi (status : Nat)
deriving Repr, DecidableEq

/-- The retry loop of `_call_llm_step`: at most `remaining` attempts; each
attempt uses the key selected by the current counter (the slot index
`counter mod N` is recorded); `RateLimitError` and 429 `APIStatusError`
advance the counter and retry, other statuses raise immediately, and the
`for ... else` branch re-raises the last error when attempts run out. -/
def callLlmLoop (keys : List String) (outcome : Nat → LlmOutcome) :
    Nat → Nat → RotationStore → List Nat → StepResult →
    StepResult × RotationStore × List Nat
  | 0, _, store, slots, lastExc => (lastExc, store, slots)
  | remaining + 1, attempt, store, slots, _ =>
    let slot := rotationIndex store % keys.length
    match outcome attempt with
    | .success t => (.ok t, store, slots ++ [slot])
    | .rateLimited =>
      callLlmLoop keys outcome remaining (attempt + 1) (markRateLimited keys store)
        (slots ++ [slot]) .raisedRateLimit
    | .apiError s =>
      if s = 429 then
        callLlmLoop keys outcome remaining (attempt + 1) (markRateLimited keys store)
          (slots ++ [slot]) (.raisedApi s)
      else (.raisedApi s, store, slots ++ [slot])

/-- `_call_llm_step` for a nonempty key list (the source raises
`RuntimeError` before the loop when no key is configured): runs
`range(max(1, len(keys)))` attempts. The initial `lastExc` is never
consulted because at least one attempt runs. -/
def callLlmStep (keys : List String) (outcome : Nat → LlmOutcome)
    (store : RotationStore) : StepResult × RotationStore × List Nat :=
  callLlmLoop keys outcome (max 1 keys.length) 0 store [] .raisedRateLimit

lemma callLlmLoop_rate_run (keys : List String) (outcome : Nat → LlmOutcome)
    (t : String) (M : Nat)
    (hN : 2 ≤ keys.length) (hM : M < keys.length)
    (hrate : ∀ i, i < M → outcome i = .rateLimited)
    (hsucc : outcome M = .success t) :
    ∀ k j c s0 e, j + k = M →
      callLlmLoop keys outcome (keys.length - j) j (some c) s0 e =
        (.ok t, some (c + k),
          s0 ++ (List.range (k + 1)).map (fun i => (c + i) % keys.length)) := by
  intro k
  induction k with
  | zero =>
    intro j c s0 e hj
    have hj' : j = M := by omega
    have hrem : keys.length - j = (keys.length - j - 1) + 1 := by omega
    rw [hrem, callLlmLoop]
    have hr1 : List.range 1 = [0] := by decide
    simp [hj', hsucc, rotationIndex, hr1]
  | succ k ih =>
    intro j c s0 e hj
    have hjM : j < M := by omega
    have hrem : keys.length - j = (keys.length - (j + 1)) + 1 := by omega
    rw [hrem, callLlmLoop]
    simp only [hrate j hjM]
    have hgt : ¬ keys.length ≤ 1 := by omega
    have hmark : markRateLimited keys (some c) = some (c + 1) := by
      simp [markRateLimited, hgt]
    rw [hmark, ih (j + 1) (c + 1) _ _ (by omega)]
    simp only [rotationIndex, Option.getD_some]
    have harith : c + 1 + k = c + (k + 1) := by omega
    rw [harith]
    refine congrArg (fun l => (StepResult.ok t, some (c + (k + 1)), l)) ?_
    rw [List.append_assoc]
    congr 1
    rw [List.singleton_append]
    conv_rhs => rw [List.range_succ_eq_map]
    rw [List.map_cons, List.map_map]
    refine congrArg₂ List.cons ?_ ?_
    · show c % keys.length = (c + 0) % keys.length
      simp
    · refine List.map_congr_left ?_
      intro a _
      show (c + 1 + a) % keys.length = (c + (a + 1)) % keys.length
      congr 1
      omega

lemma rotation_slots_nodup (N c M : Nat) (hMN : M < N) :
    ((List.range (M + 1)).map (fun i => (c + i) % N)).Nodup := by
  apply List.Nodup.map_on _ (List.nodup_range _)
  intro i hi j hj hij
  simp only [List.mem_range] at hi hj
  have hmod : (c + i) % N = (c + j) % N := hij
  have h1 : Nat.ModEq N (c + i) (c + j) := hmod
  have h2 : Nat.ModEq N i j := Nat.ModEq.add_left_cancel' c h1
  have h3 : i % N = j % N := h2
  rwa [Nat.mod_eq_of_lt (by omega), Nat.mod_eq_of_lt (by omega)] at h3

/-- C6 counterexample: with 3 keys and Redis unavailable, two consecutive
rate-limit errors do NOT advance the counter (it stays readable as 0:
`mark_openai_api_key_rate_limited` is a no-op without the durable store)
and all three attempts use the same key slot 0, contradicting the claim
that M consecutive rate-limit errors always advance the counter by at least
min(M, N−1) with attempts against distinct keys, and that the counter is
otherwise kept in memory. -/
theorem C6_rotation_no_memory_fallback :
    callLlmStep ["keyA", "keyB", "keyC"]
        (fun i => if i < 2 then LlmOutcome.rateLimited else LlmOutcome.success "ok")
        none =
      (StepResult.ok "ok", none, [0, 0, 0]) ∧
    rotationIndex none = 0 ∧
    ¬ ([0, 0, 0] : List Nat).Nodup := by
  refine ⟨rfl, rfl, by decide⟩

/-- C6 (amended): key selection returns `keys[counter mod N]`; when the
durable store is available and N ≥ 2, M consecutive rate-limit errors
followed by a success advance the counter by exactly M (≥ min(M, N−1)) and
the M+1 attempts use the key slots `(counter+i) mod N`, which are pairwise
distinct, in rotation order; rotation is a no-op when N ≤ 1. When the
durable store is unavailable the counter is NOT kept in memory: marking is
a no-op and the counter reads as 0. -/
theorem C6_key_rotation (keys : List String) (outcome : Nat → LlmOutcome)
    (t : String) (M c : Nat)
    (hN : 2 ≤ keys.length) (hM : M < keys.length)
    (hrate : ∀ i, i < M → outcome i = .rateLimited)
    (hsucc : outcome M = .success t) :
    effectiveKey keys (some c) = keys[c % keys.length]? ∧
    callLlmStep keys outcome (some c) =
      (.ok t, some (c + M),
        (List.range (M + 1)).map (fun i => (c + i) % keys.length)) ∧
    ((List.range (M + 1)).map (fun i => (c + i) % keys.length)).Nodup ∧
    (∀ (ks : List String) (st : RotationStore), ks.length ≤ 1 →
      markRateLimited ks st = st) ∧
    (∀ ks : List String, markRateLimited ks none = none) := by
  refine ⟨?_, ?_, rotation_slots_nodup _ _ _ hM, ?_, ?_⟩
  · have hne : ¬ keys.isEmpty := by
      cases keys with
      | nil => simp at hN
      | cons a l => simp
    simp [effectiveKey, hne, rotationIndex]
  · have hmax : max 1 keys.length = keys.length := by omega
    have := callLlmLoop_rate_run keys outcome t M hN hM hrate hsucc M 0 c [] .raisedRateLimit
      (by omega)
    rw [callLlmStep, hmax]
    simpa using this
  · intro ks st hks
    simp [markRateLimited, hks]
  · intro ks
    by_cases h : ks.length ≤ 1 <;> simp [markRateLimited, h]

theorem C6_key_rotation_witness :
    effectiveKey ["keyA", "keyB", "keyC"] (some 4) = some "keyB" ∧
    callLlmStep ["keyA", "keyB", "keyC"]
        (fun i => if i < 2 then LlmOutcome.rateLimited else LlmOutcome.success "ok")
        (some 0) =
      (StepResult.ok "ok", some 2, [0, 1, 2]) := by
  have h := C6_key_rotation ["keyA", "keyB", "keyC"]
    (fun i => if i < 2 then LlmOutcome.rateLimited else LlmOutcome.success "ok")
    "ok" 2 0 (by decide) (by decide)
    (fun i hi => by interval_cases i <;> rfl) rfl
  refine ⟨?_, ?_⟩
  · have h1 := C6_key_rotation ["keyA", "keyB", "keyC"]
      (fun _ => LlmOutcome.success "ok") "ok" 0 4 (by decide) (by decide)
      (fun i hi => by omega) rfl
    rw [h1.1]
    rfl
  · rw [h.2.1]
    rfl

/-! ## Instruction blocks and the conditions-decide node
(tools_subgraph.py: `_decide_condition_via_llm`, `conditions_decide_node`) -/

/-- Payload of a `conditional/agent` block exactly as `add_conditional_program`
produces it (the only producer of such payloads in the pipeline); the four
fixed `apply_policy` gate strings are constants and carry no data. -/
structure CondPayload where
  condition_id : String
  condition : String
  when_true : List String
  when_false : List String
  condition_text : String
deriving Repr, DecidableEq

structure InstructionBlock where
  id : String
  source : String
  target : String
  kind : String
  priority : Int := 10
  text : Option String := none
  payload : Option CondPayload := none
deriving Repr, DecidableEq

def isConditionalAgent (b : InstructionBlock) : Bool :=
  b.kind == "conditional" && b.target == "agent"

/-- `str(payload.get("condition") or payload.get("condition_text") or
block.get("text") or "")` with Python truthiness on each link. -/
def blockCondition (b : InstructionBlock) : String :=
  match b.payload with
  | some p =>
    if p.condition ≠ "" then p.condition
    else if p.condition_text ≠ "" then p.condition_text
    else b.text.getD ""
  | none => b.text.getD ""

def blockWhenTrue (b : InstructionBlock) : List String :=
  match b.payload with
  | some p => p.when_true
  | none => []

def blockWhenFalse (b : InstructionBlock) : List String :=
  match b.payload with
  | some p => p.when_false
  | none => []

def decisionValues : List String := ["ignore", "true", "false", "unknown"]

/-- `_decide_condition_via_llm`. `llmJson` is the oracle for the
`chat_json` call (the parsed LLM output for the given condition and branch
texts); the function coerces any output lacking a valid `decision` field to
`"unknown"` and normalizes `followup_question` via truthiness + `str` +
`strip`, returning `none` for an empty followup. -/
def decideConditionViaLlm (llmJson : String → List String → List String → PyVal)
    (condition : String) (whenTrue whenFalse : List String) : String × Option String :=
  let data := llmJson condition whenTrue whenFalse
  let rawDecision : Option PyVal :=
    match data with
    | .pdict kvs => kvs.lookup "decision"
    | _ => none
  let decision : String :=
    match rawDecision with
    | some (.pstr s) => if decisionValues.contains s then s else "unknown"
    | _ => "unknown"
  let rawFollowup : PyVal :=
    match data with
    | .pdict kvs => (kvs.lookup "followup_question").getD (.pstr "")
    | _ => .pstr ""
  let followup := if pyTruthy rawFollowup then rawFollowup else .pstr ""
  let fq := pyStrip (pyStrOf followup)
  (decision, if fq = "" then none else some fq)

/-- `int(block.get("priority") or 10)`: Python truthiness makes priority 0
fall back to 10. -/
def priorityOr10 (p : Int) : Int := if p = 0 then 10 else p

/-- The `raw/agent` blocks substituted for a decided branch
(`:applied:true:i` / `:applied:false:i`, 1-based). -/
def appliedBranchBlocks (b : InstructionBlock) (label : String)
    (texts : List String) : List InstructionBlock :=
  (List.range texts.length).zip texts |>.map fun (i, txt) =>
    { id := b.id ++ ":applied:" ++ label ++ ":" ++ toString (i + 1),
      source := b.source, target := "agent", kind := "raw",
      priority := priorityOr10 b.priority, text := some txt }

/-- The single `required/agent` followup block emitted for
`decision = unknown` with a non-empty followup question. -/
def followupBlock (b : InstructionBlock) (fq : String) : InstructionBlock :=
  { id := b.id ++ ":applied:unknown:followup",
    source := b.source, target := "agent", kind := "required",
    priority := priorityOr10 b.priority,
    text := some
      ("В конце ответа задай уточняющий вопрос (сначала ответь на основной вопрос пользователя):\n"
        ++ fq) }

/-- The `rule/judge` block recording a non-`ignore` decision. -/
def decisionRuleBlock (b : InstructionBlock) (decision : String) : InstructionBlock :=
  { id := b.id ++ ":decision",
    source := b.source, target := "judge", kind := "rule",
    priority := priorityOr10 b.priority,
    text := some
      ("Условный блок " ++ b.id ++ " был оценён как decision=" ++ decision
        ++ ". Проверь, что ответ не противоречит этому решению и не содержит утверждений из другой ветки.") }

/-- Blocks applied by one decision (the `if decision == ... / elif ...`
chain inside `decide`; note `elif decision == "unknown" and followup`). -/
def appliedBlocksFor (b : InstructionBlock) (decision : String)
    (followup : Option String) (wt wf : List String) : List InstructionBlock :=
  if decision = "true" then appliedBranchBlocks b "true" wt
  else if decision = "false" then appliedBranchBlocks b "false" wf
  else if decision = "unknown" then
    match followup with
    | some f => [followupBlock b f]
    | none => []
  else []

/-- The inner `decide(block)` coroutine: for an empty condition no LLM call
is made and the decision is `ignore`; otherwise the LLM decision is applied
to the branch texts. -/
def decideBlock (llmJson : String → List String → List String → PyVal)
    (b : InstructionBlock) : String × InstructionBlock × List InstructionBlock :=
  let condition := blockCondition b
  if condition = "" then ("ignore", b, [])
  else
    let r := decideConditionViaLlm llmJson condition (blockWhenTrue b) (blockWhenFalse b)
    (r.1, b, appliedBlocksFor b r.1 r.2 (blockWhenTrue b) (blockWhenFalse b))

/-- `scenario_decisions.setdefault(src, []); scenario_decisions[src].append(d)`
on an insertion-ordered dict. -/
def appendAt : List (String × List String) → String → String → List (String × List String)
  | [], k, v => [(k, [v])]
  | (k0, vs) :: rest, k, v =>
    if k0 = k then (k0, vs ++ [v]) :: rest else (k0, vs) :: appendAt rest k v

def dedupStr : List String → List String
  | [] => []
  | x :: xs => if xs.contains x then dedupStr xs else x :: dedupStr xs

/-- Python `sorted(set(xs))` for strings. -/
def sortDedup (xs : List String) : List String :=
  (dedupStr xs).mergeSort (fun a b => a ≤ b)

lemma mem_dedupStr (a : String) : ∀ xs : List String, a ∈ dedupStr xs ↔ a ∈ xs := by
  intro xs
  induction xs with
  | nil => simp [dedupStr]
  | cons x rest ih =>
    by_cases hx : rest.contains x
    · simp only [dedupStr, if_pos hx, ih, List.mem_cons]
      constructor
      · exact Or.inr
      · rintro (rfl | h)
        · simpa using hx
        · exact h
    · simp only [dedupStr, if_neg hx, List.mem_cons, ih]

lemma mem_sortDedup (a : String) (xs : List String) : a ∈ sortDedup xs ↔ a ∈ xs :=
  ((List.mergeSort_perm (dedupStr xs) _).mem_iff).trans (mem_dedupStr a xs)

structure DecideOut where
  blocks : List InstructionBlock
  scenario_decisions : List (String × List String)
  sources_with_condition : List String
deriving Repr

/-- `conditions_decide_node`: decides every `conditional/agent` block,
drops all conditional blocks from the prompt, appends a `rule/judge` block
per non-`ignore` decision and the per-decision applied blocks. -/
def conditionsDecideNode (llmJson : String → List String → List String → PyVal)
    (blocks : List InstructionBlock) : DecideOut :=
  let conditionalBlocks := blocks.filter isConditionalAgent
  let sourcesWithCondition :=
    sortDedup ((conditionalBlocks.map (fun b => pyStrip b.source)).filter (· ≠ ""))
  let results := conditionalBlocks.map (decideBlock llmJson)
  let scenarioDecisions :=
    results.foldl (fun acc r =>
      let src := pyStrip r.2.1.source
      if src = "" then acc else appendAt acc src r.1) []
  let newBlocks := results.filterMap (fun r =>
    if r.1 ≠ "ignore" then some (decisionRuleBlock r.2.1 r.1) else none)
  let appliedFromConditions := (results.map (fun r => r.2.2)).flatten
  let keep := blocks.filter (fun b => !(isConditionalAgent b))
  { blocks := keep ++ newBlocks ++ appliedFromConditions,
    scenario_decisions := scenarioDecisions,
    sources_with_condition := sourcesWithCondition }

lemma startsWithChars_append (l rest : List Char) : startsWithChars l (l ++ rest) = true := by
  induction l with
  | nil => rfl
  | cons a as ih => simp [startsWithChars, ih]

lemma hasSubChars_suffix (pre needle : List Char) :
    hasSubChars needle (pre ++ needle) = true := by
  induction pre with
  | nil =>
    cases needle with
    | nil => rfl
    | cons c cs =>
      show hasSubChars (c :: cs) (c :: cs) = true
      have h := startsWithChars_append (c :: cs) []
      rw [List.append_nil] at h
      rw [hasSubChars]
      simp [h]
  | cons p ps ih =>
    show hasSubChars needle (p :: (ps ++ needle)) = true
    rw [hasSubChars]
    simp [ih]

lemma containsSub_append_right (a b : String) : containsSub (a ++ b) b = true := by
  unfold containsSub
  have h : (a ++ b).toList = a.toList ++ b.toList := String.data_append a b
  rw [h]
  exact hasSubChars_suffix a.toList b.toList

lemma appendAt_values (S : List String) :
    ∀ (acc : List (String × List String)) (k v : String),
      (∀ p ∈ acc, ∀ d ∈ p.2, d ∈ S) → v ∈ S →
      ∀ p ∈ appendAt acc k v, ∀ d ∈ p.2, d ∈ S := by
  intro acc
  induction acc with
  | nil =>
    intro k v _ hv p hp d hd
    simp [appendAt] at hp
    subst hp
    simp at hd
    subst hd
    exact hv
  | cons q rest ih =>
    intro k v hacc hv p hp d hd
    obtain ⟨k0, vs⟩ := q
    rw [appendAt] at hp
    by_cases hk : k0 = k
    · simp only [hk, if_pos rfl] at hp
      rcases List.mem_cons.mp hp with h | h
      · subst h
        simp only [List.mem_append] at hd
        rcases hd with h | h
        · exact hacc (k, vs) (by simp [← hk]) d h
        · simp at h
          subst h
          exact hv
      · exact hacc p (by simp [h]) d hd
    · simp only [if_neg hk] at hp
      rcases List.mem_cons.mp hp with h | h
      · subst h
        exact hacc (k0, vs) (by simp) d hd
      · exact ih k v (fun q hq => hacc q (by simp [hq])) hv p h d hd

lemma foldl_appendAt_values (S : List String) :
    ∀ (rs : List (String × InstructionBlock × List InstructionBlock))
      (acc : List (String × List String)),
      (∀ p ∈ acc, ∀ d ∈ p.2, d ∈ S) →
      (∀ r ∈ rs, r.1 ∈ S) →
      ∀ p ∈ rs.foldl (fun acc r =>
          let src := pyStrip r.2.1.source
          if src = "" then acc else appendAt acc src r.1) acc,
        ∀ d ∈ p.2, d ∈ S := by
  intro rs
  induction rs with
  | nil => intro acc hacc _ p hp; exact hacc p hp
  | cons r rest ih =>
    intro acc hacc hrs p hp
    rw [List.foldl_cons] at hp
    refine ih _ ?_ (fun q hq => hrs q (by simp [hq])) p hp
    by_cases hsrc : pyStrip r.2.1.source = ""
    · simpa [hsrc] using hacc
    · intro q hq
      simp only [hsrc] at hq
      exact appendAt_values S acc _ _ hacc (hrs r (by simp)) q (by simpa [hsrc] using hq)

lemma decideConditionViaLlm_mem (llmJson : String → List String → List String → PyVal)
    (c : String) (wt wf : List String) :
    (decideConditionViaLlm llmJson c wt wf).1 ∈ decisionValues := by
  unfold decideConditionViaLlm
  cases hdata : llmJson c wt wf with
  | pdict kvs =>
    cases hdec : kvs.lookup "decision" with
    | none => simp [hdec, decisionValues]
    | some v =>
      cases v with
      | pstr s =>
        by_cases hs : s = "ignore" ∨ s = "true" ∨ s = "false" ∨ s = "unknown"
        · simp [hdec, decisionValues, hs]
        · simp [hdec, decisionValues, hs]
      | pnone => simp [hdec, decisionValues]
      | pbool b => simp [hdec, decisionValues]
      | pint n => simp [hdec, decisionValues]
      | plist xs => simp [hdec, decisionValues]
      | pdict kvs2 => simp [hdec, decisionValues]
  | pnone => simp [decisionValues]
  | pbool b => simp [decisionValues]
  | pint n => simp [decisionValues]
  | pstr s => simp [decisionValues]
  | plist xs => simp [decisionValues]

lemma decideBlock_mem (llmJson : String → List String → List String → PyVal)
    (b : InstructionBlock) : (decideBlock llmJson b).1 ∈ decisionValues := by
  unfold decideBlock
  by_cases hc : blockCondition b = ""
  · simp [hc, decisionValues]
  · simpa [hc] using decideConditionViaLlm_mem llmJson (blockCondition b)
      (blockWhenTrue b) (blockWhenFalse b)

/-- C10: the condition decision consumed downstream is always in the closed
set ignore/true/false/unknown: the coercion in `_decide_condition_via_llm`
maps anything that is not a dict with a valid `decision` string to
`"unknown"` (a non-"unknown" result can only come from a literal `decision`
field), and every decision recorded in `scenario_decisions` lies in the
set. -/
theorem C10_decision_closed_set (llmJson : String → List String → List String → PyVal)
    (c : String) (wt wf : List String) (blocks : List InstructionBlock) :
    (decideConditionViaLlm llmJson c wt wf).1 ∈ decisionValues ∧
    (∀ d, (decideConditionViaLlm llmJson c wt wf).1 = d → d ≠ "unknown" →
      ∃ kvs, llmJson c wt wf = .pdict kvs ∧ kvs.lookup "decision" = some (.pstr d)) ∧
    (∀ p ∈ (conditionsDecideNode llmJson blocks).scenario_decisions,
      ∀ d ∈ p.2, d ∈ decisionValues) := by
  refine ⟨decideConditionViaLlm_mem llmJson c wt wf, ?_, ?_⟩
  · intro d hd hne
    unfold decideConditionViaLlm at hd
    cases hdata : llmJson c wt wf with
    | pdict kvs =>
      refine ⟨kvs, rfl, ?_⟩
      rw [hdata] at hd
      cases hdec : kvs.lookup "decision" with
      | none => simp [hdec] at hd; exact absurd hd.symm hne
      | some v =>
        cases v with
        | pstr s =>
          by_cases hs : s = "ignore" ∨ s = "true" ∨ s = "false" ∨ s = "unknown"
          · simp only [hdec, decisionValues] at hd
            rw [if_pos (by simpa using hs)] at hd
            exact congrArg (fun x => some (PyVal.pstr x)) hd
          · simp only [hdec, decisionValues] at hd
            rw [if_neg (by simpa using hs)] at hd
            exact absurd hd.symm hne
        | pnone => simp [hdec] at hd; exact absurd hd.symm hne
        | pbool b => simp [hdec] at hd; exact absurd hd.symm hne
        | pint n => simp [hdec] at hd; exact absurd hd.symm hne
        | plist xs => simp [hdec] at hd; exact absurd hd.symm hne
        | pdict kvs2 => simp [hdec] at hd; exact absurd hd.symm hne
    | pnone => rw [hdata] at hd; simp at hd; exact absurd hd.symm hne
    | pbool b => rw [hdata] at hd; simp at hd; exact absurd hd.symm hne
    | pint n => rw [hdata] at hd; simp at hd; exact absurd hd.symm hne
    | pstr s => rw [hdata] at hd; simp at hd; exact absurd hd.symm hne
    | plist xs => rw [hdata] at hd; simp at hd; exact absurd hd.symm hne
  · intro p hp d hd
    unfold conditionsDecideNode at hp
    simp only at hp
    refine foldl_appendAt_values decisionValues _ [] (by simp) ?_ p hp d hd
    intro r hr
    rcases List.mem_map.mp hr with ⟨blk, _, hblk⟩
    rw [← hblk]
    exact decideBlock_mem llmJson blk

theorem C10_decision_closed_set_witness :
    (decideConditionViaLlm (fun _ _ _ => PyVal.pstr "garbage") "c" [] []).1
      ∈ decisionValues ∧
    (decideConditionViaLlm (fun _ _ _ => PyVal.pstr "garbage") "c" [] []).1 = "unknown" :=
  ⟨(C10_decision_closed_set (fun _ _ _ => PyVal.pstr "garbage") "c" [] [] []).1, rfl⟩

/-- C2 counterexample: a conditional block whose decider returns
`decision = "unknown"` with an EMPTY `followup_question` produces NO
`required/agent` instruction at all (the source guards the followup block
with `elif decision == "unknown" and followup:`), contradicting the claim
that an `unknown` decision always emits exactly one `required/agent`
followup instruction. -/
theorem C2_unknown_empty_followup_counterexample :
    (decideBlock
        (fun _ _ _ => PyVal.pdict
          [("decision", PyVal.pstr "unknown"), ("followup_question", PyVal.pstr "")])
        { id := "scenario:s:if:2", source := "s", target := "agent", kind := "conditional",
          priority := 10, text := none,
          payload := some { condition_id := "2", condition := "C", when_true := ["T"],
                            when_false := ["F"], condition_text := "C" } }).1 = "unknown" ∧
    ((conditionsDecideNode
        (fun _ _ _ => PyVal.pdict
          [("decision", PyVal.pstr "unknown"), ("followup_question", PyVal.pstr "")])
        [{ id := "scenario:s:if:2", source := "s", target := "agent", kind := "conditional",
           priority := 10, text := none,
           payload := some { condition_id := "2", condition := "C", when_true := ["T"],
                             when_false := ["F"], condition_text := "C" } }]).blocks.filter
      (fun b => b.kind == "required" && b.target == "agent")) = [] :=
  ⟨rfl, rfl⟩

/-- C2 (amended): for every conditional/agent block with a non-empty
condition, decision `true` replaces the block by each `when_true` text as a
separate raw/agent instruction; `false` does the same with `when_false`;
`unknown` with a non-empty followup question drops the branch texts and
emits exactly one required/agent instruction containing the followup
question (prefixed by the instruction to answer the main question first and
ask it at the end); `unknown` with an empty followup question emits no
agent-facing block; `ignore` drops the block entirely; and for every
non-ignore decision one additional rule/judge block naming the decision is
emitted. -/
theorem C2_condition_decide_effects
    (llmJson : String → List String → List String → PyVal)
    (others : List InstructionBlock) (b : InstructionBlock)
    (hothers : ∀ o ∈ others, isConditionalAgent o = false)
    (hb : isConditionalAgent b = true)
    (hcond : blockCondition b ≠ "") :
    (∀ d f,
      decideConditionViaLlm llmJson (blockCondition b) (blockWhenTrue b) (blockWhenFalse b)
          = (d, f) →
      (d = "true" →
        (conditionsDecideNode llmJson (others ++ [b])).blocks
          = others ++ [decisionRuleBlock b "true"]
              ++ appliedBranchBlocks b "true" (blockWhenTrue b)) ∧
      (d = "false" →
        (conditionsDecideNode llmJson (others ++ [b])).blocks
          = others ++ [decisionRuleBlock b "false"]
              ++ appliedBranchBlocks b "false" (blockWhenFalse b)) ∧
      (d = "unknown" → ∀ fq, f = some fq →
        (conditionsDecideNode llmJson (others ++ [b])).blocks
          = others ++ [decisionRuleBlock b "unknown"] ++ [followupBlock b fq]) ∧
      (d = "unknown" → f = none →
        (conditionsDecideNode llmJson (others ++ [b])).blocks
          = others ++ [decisionRuleBlock b "unknown"]) ∧
      (d = "ignore" →
        (conditionsDecideNode llmJson (others ++ [b])).blocks = others)) ∧
    (∀ lbl texts, ∀ t ∈ appliedBranchBlocks b lbl texts,
      t.kind = "raw" ∧ t.target = "agent" ∧ t.text ∈ texts.map some) ∧
    (∀ fq, (followupBlock b fq).kind = "required" ∧ (followupBlock b fq).target = "agent" ∧
      containsSub ((followupBlock b fq).text.getD "") fq = true) ∧
    (∀ d, (decisionRuleBlock b d).target = "judge" ∧ (decisionRuleBlock b d).kind = "rule" ∧
      (decisionRuleBlock b d).id = b.id ++ ":decision") := by
  have hfilter : (others ++ [b]).filter isConditionalAgent = [b] := by
    rw [List.filter_append]
    have h1 : others.filter isConditionalAgent = [] :=
      List.filter_eq_nil_iff.mpr (fun o ho => by simp [hothers o ho])
    simp [h1, hb]
  have hkeep : (others ++ [b]).filter (fun x => !(isConditionalAgent x)) = others := by
    rw [List.filter_append]
    have h1 : others.filter (fun x => !(isConditionalAgent x)) = others :=
      List.filter_eq_self.mpr (fun o ho => by simp [hothers o ho])
    simp [h1, hb]
  refine ⟨?_, ?_, ?_, ?_⟩
  · intro d f hdf
    have hdec : decideBlock llmJson b
        = (d, b, appliedBlocksFor b d f (blockWhenTrue b) (blockWhenFalse b)) := by
      unfold decideBlock
      rw [if_neg hcond, hdf]
    have hmain : (conditionsDecideNode llmJson (others ++ [b])).blocks
        = others ++ (if d = "ignore" then [] else [decisionRuleBlock b d])
            ++ appliedBlocksFor b d f (blockWhenTrue b) (blockWhenFalse b) := by
      unfold conditionsDecideNode
      simp only [hfilter, hkeep, List.map_cons, List.map_nil, hdec,
        List.filterMap_cons, List.filterMap_nil]
      by_cases hdd : d = "ignore" <;> simp [hdd]
    refine ⟨?_, ?_, ?_, ?_, ?_⟩
    · intro h1
      subst h1
      rw [hmain]
      simp [appliedBlocksFor]
    · intro h1
      subst h1
      rw [hmain]
      simp [appliedBlocksFor]
    · intro h1 fq hf
      subst h1
      subst hf
      rw [hmain]
      simp [appliedBlocksFor]
    · intro h1 hf
      subst h1
      subst hf
      rw [hmain]
      simp [appliedBlocksFor]
    · intro h1
      subst h1
      rw [hmain]
      simp [appliedBlocksFor]
  · intro lbl texts t ht
    unfold appliedBranchBlocks at ht
    rcases List.mem_map.mp ht with ⟨⟨i, txt⟩, hmem, hmk⟩
    refine ⟨by rw [← hmk], by rw [← hmk], ?_⟩
    rw [← hmk]
    simp only []
    exact List.mem_map.mpr ⟨txt, (List.of_mem_zip hmem).2, rfl⟩
  · intro fq
    refine ⟨rfl, rfl, ?_⟩
    unfold followupBlock
    simp only [Option.getD_some]
    exact containsSub_append_right _ fq
  · intro d
    exact ⟨rfl, rfl, rfl⟩

theorem C2_condition_decide_effects_witness :
    (conditionsDecideNode
        (fun _ _ _ => PyVal.pdict
          [("decision", PyVal.pstr "true"), ("followup_question", PyVal.pstr "")])
        [{ id := "scenario:s:if:2", source := "s", target := "agent", kind := "conditional",
           priority := 10, text := none,
           payload := some { condition_id := "2", condition := "C", when_true := ["T1", "T2"],
                             when_false := ["F1"], condition_text := "C" } }]).blocks
      = [decisionRuleBlock
           { id := "scenario:s:if:2", source := "s", target := "agent", kind := "conditional",
             priority := 10, text := none,
             payload := some { condition_id := "2", condition := "C", when_true := ["T1", "T2"],
                               when_false := ["F1"], condition_text := "C" } } "true"]
        ++ appliedBranchBlocks
             { id := "scenario:s:if:2", source := "s", target := "agent", kind := "conditional",
               priority := 10, text := none,
               payload := some { condition_id := "2", condition := "C", when_true := ["T1", "T2"],
                                 when_false := ["F1"], condition_text := "C" } } "true" ["T1", "T2"] := by
  have h := (C2_condition_decide_effects
    (fun _ _ _ => PyVal.pdict
      [("decision", PyVal.pstr "true"), ("followup_question", PyVal.pstr "")])
    []
    { id := "scenario:s:if:2", source := "s", target := "agent", kind := "conditional",
      priority := 10, text := none,
      payload := some { condition_id := "2", condition := "C", when_true := ["T1", "T2"],
                        when_false := ["F1"], condition_text := "C" } }
    (by intro o ho; simp at ho) rfl (by decide)).1 "true" none rfl
  simpa using h.1 rfl

/-! ## Template substitution (scenario_engine.py `_render_template`) -/

/-- After an opening `{=`, take the run of non-`=` characters; the match
succeeds only when the run is non-empty (regex `[^=]+`) and is immediately
followed by `=}`. Returns (placeholder content, remainder after `=}`). -/
def takeExpr (cs : List Char) : Option (List Char × List Char) :=
  if (cs.takeWhile (fun c => !(c == '='))).isEmpty then none
  else
    match cs.dropWhile (fun c => !(c == '=')) with
    | '=' :: '}' :: rest2 => some (cs.takeWhile (fun c => !(c == '=')), rest2)
    | _ => none

lemma takeExpr_some_length {cs e rest2 : List Char}
    (h : takeExpr cs = some (e, rest2)) : rest2.length < cs.length := by
  unfold takeExpr at h
  split at h
  · exact absurd h (by simp)
  · split at h
    · rename_i r2 heq
      injection h with h1
      have hr : r2 = rest2 := by
        have := congrArg Prod.snd h1
        simpa using this
      have hlen : (cs.takeWhile (fun c => !(c == '='))).length
          + (cs.dropWhile (fun c => !(c == '='))).length = cs.length := by
        rw [← List.length_append, List.takeWhile_append_dropWhile]
      rw [heq] at hlen
      simp only [List.length_cons] at hlen
      rw [hr] at hlen
      omega
    · exact absurd h (by simp)

/-- The scanner of `re.sub(r"\x7b=([^=]+)=\x7d", replace, text)`: at `{=`
try to complete a placeholder; on success substitute `f` of the content and
continue after it; otherwise emit one character and continue (re.sub
resumes the search at the next position, which this formulation performs by
emitting the head and rescanning the tail). -/
def renderChars (f : String → String) : List Char → List Char
  | [] => []
  | c :: rest =>
    if c = '{' ∧ rest.head? = some '=' then
      match h : takeExpr rest.tail with
      | some (e, rest2) => (f (String.mk e)).toList ++ renderChars f rest2
      | none => c :: renderChars f rest
    else c :: renderChars f rest
termination_by cs => cs.length
decreasing_by
  · have h1 := takeExpr_some_length h
    have h2 : rest.tail.length ≤ rest.length := by
      cases rest <;> simp
    simp only [List.length_cons]
    omega
  · simp [Nat.lt_succ_self]
  · simp [Nat.lt_succ_self]

/-- Python `str.split(".")` on a character list: splitting an empty string
yields one empty part. -/
def splitDot : List Char → List (List Char)
  | [] => [[]]
  | c :: rest =>
    if c = '.' then [] :: splitDot rest
    else
      match splitDot rest with
      | part :: parts => (c :: part) :: parts
      | [] => [[c]]

/-- The `replace` callback of `_render_template`: resolves one placeholder
expression against the tool fact maps (keyed without the `tool:` prefix)
and the conversation state; unresolved references render `finderror`.
`expr.startswith("@")` / `expr.startswith("dialog.")` / `expr.split(".")`
are embedded over the character list of the stripped expression. -/
def replaceExpr (st : ConversationState)
    (toolResults : List (String × List (String × PyVal))) (exprRaw : String) : String :=
  let eL := (pyStrip exprRaw).toList
  if eL.head? = some '@' then
    let parts := splitDot eL.tail
    let toolName := String.mk (parts.headD [])
    let field := (parts[1]?).map String.mk
    let toolData := (toolResults.lookup toolName).getD []
    let value : Option PyVal :=
      match field with
      | none => if toolData.isEmpty then none else some (.pdict toolData)
      | some fld =>
        match toolData.lookup fld with
        | some .pnone => none
        | some v => some v
        | none => none
    match value with
    | some v => pyStrOf v
    | none => "finderror"
  else if startsWithChars ("dialog.".toList) eL then
    let key := String.mk (eL.drop 7)
    let value : Option PyVal :=
      if key = "name" then
        match st.user_profile.name with
        | some .pnone => none
        | v => v
      else if key = "age" then
        match st.user_profile.age with
        | some .pnone => none
        | v => v
      else if key = "message_index" then some (.pint st.message_index)
      else none
    match value with
    | some v => pyStrOf v
    | none => "finderror"
  else "finderror"

/-- `_render_template(text, state=state, tool_results=...)`. -/
def renderTemplate (text : String) (st : ConversationState)
    (toolResults : List (String × List (String × PyVal))) : String :=
  String.mk (renderChars (replaceExpr st toolResults) text.toList)

lemma renderChars_nil (f : String → String) : renderChars f [] = [] := by
  rw [renderChars]

lemma renderChars_cons_ne (f : String → String) (c : Char) (rest : List Char)
    (h : ¬ (c = '{' ∧ rest.head? = some '=')) :
    renderChars f (c :: rest) = c :: renderChars f rest := by
  rw [renderChars]
  rw [if_neg h]

lemma renderChars_cons_miss (f : String → String) (c : Char) (rest : List Char)
    (hb : c = '{' ∧ rest.head? = some '=') (h : takeExpr rest.tail = none) :
    renderChars f (c :: rest) = c :: renderChars f rest := by
  rw [renderChars]
  rw [if_pos hb]
  split
  · rename_i e' r2' heq
    rw [h] at heq
    exact absurd heq (by simp)
  · rfl

lemma renderChars_placeholder (f : String → String) (e r2 rest : List Char)
    (h : takeExpr rest = some (e, r2)) :
    renderChars f ('{' :: '=' :: rest) =
      (f (String.mk e)).toList ++ renderChars f r2 := by
  rw [renderChars]
  rw [if_pos (by simp)]
  split
  · rename_i e' r2' heq
    simp only [List.tail_cons] at heq
    rw [h] at heq
    injection heq with h1
    injection h1 with h2 h3
    rw [h2, h3]
  · rename_i heq
    simp only [List.tail_cons] at heq
    rw [h] at heq
    exact absurd heq (by simp)

lemma tw_dw_exact (e post : List Char) (he : ∀ c ∈ e, ¬ c = '=') :
    (e ++ '=' :: '}' :: post).takeWhile (fun c => !(c == '=')) = e ∧
    (e ++ '=' :: '}' :: post).dropWhile (fun c => !(c == '=')) = '=' :: '}' :: post := by
  induction e with
  | nil => constructor <;> simp
  | cons a as ih =>
    have ha : ¬ a = '=' := he a (by simp)
    obtain ⟨ih1, ih2⟩ := ih (fun c hc => he c (by simp [hc]))
    constructor
    · simp only [List.cons_append, List.takeWhile_cons]
      simp [ha, ih1]
    · simp only [List.cons_append, List.dropWhile_cons]
      simp [ha, ih2]

lemma takeExpr_exact (e post : List Char) (hne : e ≠ []) (he : ∀ c ∈ e, ¬ c = '=') :
    takeExpr (e ++ '=' :: '}' :: post) = some (e, post) := by
  obtain ⟨h1, h2⟩ := tw_dw_exact e post he
  unfold takeExpr
  rw [h1, h2]
  simp [hne]

lemma renderChars_no_open (f : String → String) :
    ∀ cs, hasSubChars ['{', '='] cs = false → renderChars f cs = cs := by
  intro cs
  induction cs with
  | nil => intro _; exact renderChars_nil f
  | cons c rest ih =>
    intro h
    rw [hasSubChars] at h
    rw [Bool.or_eq_false_iff] at h
    obtain ⟨h1, h2⟩ := h
    have hcond : ¬ (c = '{' ∧ rest.head? = some '=') := by
      rintro ⟨rfl, hh⟩
      cases rest with
      | nil => simp at hh
      | cons r rs =>
        simp at hh
        subst hh
        simp [startsWithChars] at h1
    rw [renderChars_cons_ne f c rest hcond, ih h2]

lemma renderChars_append_no_open (f : String → String) :
    ∀ (pre l : List Char), hasSubChars ['{', '='] pre = false →
      l.head? ≠ some '=' →
      renderChars f (pre ++ l) = pre ++ renderChars f l := by
  intro pre
  induction pre with
  | nil => intro l _ _; simp
  | cons p ps ih =>
    intro l h hl
    rw [hasSubChars] at h
    rw [Bool.or_eq_false_iff] at h
    obtain ⟨h1, h2⟩ := h
    have hcond : ¬ (p = '{' ∧ (ps ++ l).head? = some '=') := by
      rintro ⟨rfl, hh⟩
      cases ps with
      | nil => simp at hh; exact hl (by simpa using hh)
      | cons q qs =>
        simp at hh
        subst hh
        simp [startsWithChars] at h1
    rw [List.cons_append, renderChars_cons_ne f p (ps ++ l) hcond, ih l h2 hl]
    rfl

/-- C5 counterexample: the placeholder `{=@t=}` for a KNOWN tool whose fact
map is empty renders `finderror`, although the whole-map value `{}` is not
None (the source coerces it via `value = tool_data or None`); the claim
says a resolvable `@tool` reference with a non-None value is replaced by
the string form of that value, which for `{}` is `"{}"`, not `finderror`. -/
theorem C5_empty_toolmap_counterexample :
    renderTemplate "\x7b=@t=\x7d" { conversation_id := "c" } [("t", [])] = "finderror" ∧
    pyStrOf (PyVal.pdict []) = "\x7b\x7d" := by
  constructor
  · show String.mk (renderChars _ ['{', '=', '@', 't', '=', '}']) = "finderror"
    rw [renderChars_placeholder _ ['@', 't'] [] ['@', 't', '=', '}'] rfl]
    rw [renderChars_nil]
    rfl
  · rfl

/-- C5 (amended): template substitution replaces each placeholder `{=EXPR=}`
(EXPR non-empty, without `=`) by the resolution of EXPR and leaves
placeholder-free text unchanged. Resolution: `@tool.field` with a known
tool and a field present with a non-None value gives the string form of
that value; a missing tool, missing field or None value gives `finderror`;
`@tool` gives the string form of the whole fact map when the tool is known
and the map is NON-EMPTY, and `finderror` when the tool is unknown or its
map empty; `dialog.name`/`dialog.age` give the string form of the profile
value when not None, else `finderror`; `dialog.message_index` always
resolves; any other dialog key or unknown prefix gives `finderror`. -/
theorem C5_render_template (st : ConversationState)
    (tr : List (String × List (String × PyVal))) :
    (∀ pre e post : String,
        hasSubChars ['{', '='] pre.toList = false →
        e.toList ≠ [] →
        (∀ c ∈ e.toList, ¬ c = '=') →
        renderTemplate (pre ++ "\x7b=" ++ e ++ "=\x7d" ++ post) st tr
          = pre ++ replaceExpr st tr e ++ renderTemplate post st tr) ∧
    (∀ s : String, hasSubChars ['{', '='] s.toList = false →
        renderTemplate s st tr = s) ∧
    (∀ e tool fld m v, pyStrip e = e → e.toList.head? = some '@' →
        splitDot e.toList.tail = [tool.toList, fld.toList] →
        tr.lookup tool = some m → m.lookup fld = some v → v ≠ .pnone →
        replaceExpr st tr e = pyStrOf v) ∧
    (∀ e tool fld m, pyStrip e = e → e.toList.head? = some '@' →
        splitDot e.toList.tail = [tool.toList, fld.toList] →
        (tr.lookup tool = none ∨
          (tr.lookup tool = some m ∧
            (m.lookup fld = none ∨ m.lookup fld = some .pnone))) →
        replaceExpr st tr e = "finderror") ∧
    (∀ e tool m, pyStrip e = e → e.toList.head? = some '@' →
        splitDot e.toList.tail = [tool.toList] →
        tr.lookup tool = some m → m ≠ [] →
        replaceExpr st tr e = pyStrOf (.pdict m)) ∧
    (∀ e tool, pyStrip e = e → e.toList.head? = some '@' →
        splitDot e.toList.tail = [tool.toList] →
        (tr.lookup tool = none ∨ tr.lookup tool = some []) →
        replaceExpr st tr e = "finderror") ∧
    (∀ v, st.user_profile.name = some v → v ≠ .pnone →
        replaceExpr st tr "dialog.name" = pyStrOf v) ∧
    ((st.user_profile.name = none ∨ st.user_profile.name = some .pnone) →
        replaceExpr st tr "dialog.name" = "finderror") ∧
    (∀ v, st.user_profile.age = some v → v ≠ .pnone →
        replaceExpr st tr "dialog.age" = pyStrOf v) ∧
    ((st.user_profile.age = none ∨ st.user_profile.age = some .pnone) →
        replaceExpr st tr "dialog.age" = "finderror") ∧
    (replaceExpr st tr "dialog.message_index" = pyStrOf (.pint st.message_index)) ∧
    (∀ e, pyStrip e = e → e.toList.head? ≠ some '@' →
        startsWithChars ("dialog.".toList) e.toList = true →
        String.mk (e.toList.drop 7) ≠ "name" →
        String.mk (e.toList.drop 7) ≠ "age" →
        String.mk (e.toList.drop 7) ≠ "message_index" →
        replaceExpr st tr e = "finderror") ∧
    (∀ e, pyStrip e = e → e.toList.head? ≠ some '@' →
        startsWithChars ("dialog.".toList) e.toList = false →
        replaceExpr st tr e = "finderror") := by
  have hwhole : ∀ (pre e post : String),
      hasSubChars ['{', '='] pre.toList = false →
      e.toList ≠ [] →
      (∀ c ∈ e.toList, ¬ c = '=') →
      renderTemplate (pre ++ "\x7b=" ++ e ++ "=\x7d" ++ post) st tr
        = pre ++ replaceExpr st tr e ++ renderTemplate post st tr := by
    intro pre e post hpre hne he
    unfold renderTemplate
    have hdata : (pre ++ "\x7b=" ++ e ++ "=\x7d" ++ post).toList
        = pre.toList ++ ('{' :: '=' :: (e.toList ++ '=' :: '}' :: post.toList)) := by
      show (pre ++ "\x7b=" ++ e ++ "=\x7d" ++ post).data
          = pre.data ++ ('{' :: '=' :: (e.data ++ '=' :: '}' :: post.data))
      simp only [String.data_append]
      simp [List.append_assoc]
    rw [hdata]
    rw [renderChars_append_no_open _ _ _ hpre (by simp)]
    rw [renderChars_placeholder _ e.toList post.toList _ (takeExpr_exact _ _ hne he)]
    apply String.ext
    show pre.data ++ ((replaceExpr st tr (String.mk e.toList)).data
        ++ renderChars (replaceExpr st tr) post.toList)
      = (pre ++ replaceExpr st tr e ++ String.mk (renderChars (replaceExpr st tr) post.toList)).data
    simp only [String.data_append]
    have hE : String.mk e.toList = e := rfl
    rw [hE]
    simp
  refine ⟨hwhole, ?_, ?_, ?_, ?_, ?_, ?_, ?_, ?_, ?_, ?_, ?_, ?_⟩
  · intro s hs
    unfold renderTemplate
    rw [renderChars_no_open _ _ hs]
    rfl
  · intro e tool fld m v hstrip hhead hsplit hm hv hvn
    unfold replaceExpr
    rw [hstrip, if_pos hhead, hsplit]
    simp only [List.headD_cons, List.getElem?_cons_succ, List.getElem?_cons_zero,
      Option.map_some']
    rw [show String.mk tool.toList = tool from rfl, show String.mk fld.toList = fld from rfl]
    rw [hm]
    simp only [Option.getD_some]
    rw [hv]
    cases v with
    | pnone => exact absurd rfl hvn
    | pbool b => rfl
    | pint n => rfl
    | pstr s => rfl
    | plist xs => rfl
    | pdict kvs => rfl
  · intro e tool fld m hstrip hhead hsplit hcase
    unfold replaceExpr
    rw [hstrip, if_pos hhead, hsplit]
    simp only [List.headD_cons, List.getElem?_cons_succ, List.getElem?_cons_zero,
      Option.map_some']
    rw [show String.mk tool.toList = tool from rfl, show String.mk fld.toList = fld from rfl]
    rcases hcase with h | ⟨hm, hfld⟩
    · rw [h]
      rfl
    · rw [hm]
      simp only [Option.getD_some]
      rcases hfld with h | h <;> rw [h]
  · intro e tool m hstrip hhead hsplit hm hne
    unfold replaceExpr
    rw [hstrip, if_pos hhead, hsplit]
    simp only [List.headD_cons, List.getElem?_cons_zero, List.getElem?_nil, Option.map_none']
    rw [show String.mk tool.toList = tool from rfl]
    rw [hm]
    simp only [Option.getD_some]
    have hie : m.isEmpty = false := by
      cases m with
      | nil => exact absurd rfl hne
      | cons a l => rfl
    simp [hie]
  · intro e tool hstrip hhead hsplit hcase
    unfold replaceExpr
    rw [hstrip, if_pos hhead, hsplit]
    simp only [List.headD_cons, List.getElem?_cons_zero, List.getElem?_nil, Option.map_none']
    rw [show String.mk tool.toList = tool from rfl]
    rcases hcase with h | h <;> rw [h] <;> rfl
  · intro v hv hvn
    unfold replaceExpr
    rw [hv]
    cases v with
    | pnone => exact absurd rfl hvn
    | pbool b => rfl
    | pint n => rfl
    | pstr s => rfl
    | plist xs => rfl
    | pdict kvs => rfl
  · rintro (h | h) <;> (unfold replaceExpr; rw [h]) <;> rfl
  · intro v hv hvn
    unfold replaceExpr
    rw [hv]
    cases v with
    | pnone => exact absurd rfl hvn
    | pbool b => rfl
    | pint n => rfl
    | pstr s => rfl
    | plist xs => rfl
    | pdict kvs => rfl
  · rintro (h | h) <;> (unfold replaceExpr; rw [h]) <;> rfl
  · rfl
  · intro e hstrip hhead hdw hk1 hk2 hk3
    unfold replaceExpr
    rw [hstrip, if_neg hhead, if_pos hdw]
    have hk1' : ({ data := List.drop 7 e.data } : String) ≠ "name" := hk1
    have hk2' : ({ data := List.drop 7 e.data } : String) ≠ "age" := hk2
    have hk3' : ({ data := List.drop 7 e.data } : String) ≠ "message_index" := hk3
    simp [if_neg hk1', if_neg hk2', if_neg hk3']
  · intro e hstrip hhead hdw
    unfold replaceExpr
    rw [hstrip, if_neg hhead]
    have hdw2 : ¬ startsWithChars ("dialog.".toList) e.toList = true := by
      rw [hdw]
      simp
    rw [if_neg hdw2]

theorem C5_render_template_witness :
    renderTemplate "Imya: \x7b=@get_user_data.name=\x7d"
        { conversation_id := "c", message_index := 2 }
        [("get_user_data", [("name", PyVal.pstr "Ivan"), ("age", PyVal.pint 30)])]
      = "Imya: Ivan" := by
  have h := C5_render_template
    { conversation_id := "c", message_index := 2 }
    [("get_user_data", [("name", PyVal.pstr "Ivan"), ("age", PyVal.pint 30)])]
  have h1 := h.1 "Imya: " "@get_user_data.name" ""
    (by decide) (by decide) (by decide)
  have h2 := h.2.2.1 "@get_user_data.name" "get_user_data" "name"
    [("name", PyVal.pstr "Ivan"), ("age", PyVal.pint 30)] (PyVal.pstr "Ivan")
    rfl rfl rfl rfl rfl (by simp)
  have h3 := h.2.1 "" (by decide)
  rw [show ("Imya: \x7b=@get_user_data.name=\x7d" : String)
      = "Imya: " ++ "\x7b=" ++ "@get_user_data.name" ++ "=\x7d" ++ "" from rfl]
  rw [h1, h2, h3]
  rfl

/-! ## chat_json fallback ladder (graph_pipeline.py `_OpenRouterClient.chat_json`)
with an executable embedding of `json.loads` on the JSON fragment the
pipeline exchanges (null/bool/int/string without escapes/array/object). -/

def skipWs (cs : List Char) : List Char :=
  cs.dropWhile (fun c => c == ' ' || c == '\t' || c == '\n' || c == '\r')

def parseStrLit (cs : List Char) : Option (String × List Char) :=
  let content := cs.takeWhile (fun c => !(c == '"'))
  match cs.drop content.length with
  | '"' :: rest => some (String.mk content, rest)
  | _ => none

def parseNatLit (cs : List Char) : Option (Nat × List Char) :=
  let digits := cs.takeWhile (fun c => c.isDigit)
  if digits.isEmpty then none
  else some (digits.foldl (fun acc c => acc * 10 + (c.toNat - 48)) 0, cs.drop digits.length)

mutual

def parseVal : Nat → List Char → Option (PyVal × List Char)
  | 0, _ => none
  | fuel + 1, cs0 =>
    match skipWs cs0 with
    | 'n' :: 'u' :: 'l' :: 'l' :: rest => some (.pnone, rest)
    | 't' :: 'r' :: 'u' :: 'e' :: rest => some (.pbool true, rest)
    | 'f' :: 'a' :: 'l' :: 's' :: 'e' :: rest => some (.pbool false, rest)
    | '"' :: rest =>
      match parseStrLit rest with
      | some (s, rest2) => some (.pstr s, rest2)
      | none => none
    | '[' :: rest =>
      match skipWs rest with
      | ']' :: rest2 => some (.plist [], rest2)
      | rest2 =>
        match parseElems fuel rest2 with
        | some (xs, rest3) => some (.plist xs, rest3)
        | none => none
    | '{' :: rest =>
      match skipWs rest with
      | '}' :: rest2 => some (.pdict [], rest2)
      | rest2 =>
        match parseMembers fuel rest2 with
        | some (kvs, rest3) => some (.pdict kvs, rest3)
        | none => none
    | '-' :: rest =>
      match parseNatLit rest with
      | some (n, rest2) => some (.pint (-(n : Int)), rest2)
      | none => none
    | cs1 =>
      match parseNatLit cs1 with
      | some (n, rest2) => some (.pint (n : Int), rest2)
      | none => none

def parseElems : Nat → List Char → Option (List PyVal × List Char)
  | 0, _ => none
  | fuel + 1, cs =>
    match parseVal fuel cs with
    | none => none
    | some (v, rest) =>
      match skipWs rest with
      | ',' :: rest2 =>
        match parseElems fuel rest2 with
        | some (xs, rest3) => some (v :: xs, rest3)
        | none => none
      | ']' :: rest2 => some ([v], rest2)
      | _ => none

def parseMembers : Nat → List Char → Option (List (String × PyVal) × List Char)
  | 0, _ => none
  | fuel + 1, cs =>
    match skipWs cs with
    | '"' :: rest =>
      match parseStrLit rest with
      | some (k, rest2) =>
        match skipWs rest2 with
        | ':' :: rest3 =>
          match parseVal fuel rest3 with
          | some (v, rest4) =>
            match skipWs rest4 with
            | ',' :: rest5 =>
              match parseMembers fuel rest5 with
              | some (kvs, rest6) => some ((k, v) :: kvs, rest6)
              | none => none
            | '}' :: rest5 => some ([(k, v)], rest5)
            | _ => none
          | none => none
        | _ => none
      | none => none
    | _ => none

end

/-- `json.loads` on the exchanged JSON fragment: parses one value and
requires only trailing whitespace after it. -/
def jsonLoads (s : String) : Option PyVal :=
  match parseVal (s.toList.length + 1) s.toList with
  | some (v, rest) => if (skipWs rest).isEmpty then some v else none
  | none => none

inductive ChatMode where
  | strictSchema | jsonObject | plain
deriving Repr, DecidableEq

/-- `re.search(r"\x7b.*\x7d", text, re.DOTALL)`: the greedy match runs from
the first `{` that precedes the final `}` of the text through that final
`}`; none when no such pair exists. -/
def extractBraceSpan (text : String) : Option String :=
  let rev := text.toList.reverse.dropWhile (fun c => !(c == '}'))
  if rev.isEmpty then none
  else
    let body := rev.reverse
    let span := body.dropWhile (fun c => !(c == '{'))
    if span.isEmpty then none else some (String.mk span)

/-- Third rung: a plain `chat` call (uncaught: its error propagates),
permissive extraction of the brace span, `{}` when absent or unparseable. -/
def chatJsonFallback2 (call : ChatMode → Except Unit String) : Except Unit PyVal :=
  match call .plain with
  | .error e => .error e
  | .ok raw =>
    match extractBraceSpan (pyStrip raw) with
    | none => .ok (.pdict [])
    | some span =>
      match jsonLoads span with
      | some v => .ok v
      | none => .ok (.pdict [])

/-- Second rung: `response_format={"type": "json_object"}` plus parse; any
failure falls through to the plain-chat extraction. -/
def chatJsonFallback1 (call : ChatMode → Except Unit String) : Except Unit PyVal :=
  match call .jsonObject with
  | .ok raw =>
    match jsonLoads (pyStrip raw) with
    | some v => .ok v
    | none => chatJsonFallback2 call
  | .error _ => chatJsonFallback2 call

/-- `chat_json`: strict json_schema mode, then json_object mode, then plain
extraction. `call` is the oracle for the underlying `chat` requests; the
parse result of the first successful rung is returned as-is. -/
def chatJson (call : ChatMode → Except Unit String) : Except Unit PyVal :=
  match call .strictSchema with
  | .ok raw =>
    match jsonLoads (pyStrip raw) with
    | some v => .ok v
    | none => chatJsonFallback1 call
  | .error _ => chatJsonFallback1 call

/-- C7 counterexample: when the strict-schema call answers `"3"`, the JSON
parse succeeds with the non-object value 3 and `chat_json` returns 3 as-is,
not the empty object, although none of the outputs parses as a JSON
object. -/
theorem C7_nonobject_passthrough_counterexample :
    chatJson (fun _ => Except.ok "3") = Except.ok (PyVal.pint 3) ∧
    (∀ kvs, PyVal.pint 3 ≠ PyVal.pdict kvs) := by
  refine ⟨rfl, ?_⟩
  intro kvs h
  cases h

/-- C7 (amended): `chat_json` tries strict JSON-schema mode; if that call or
its JSON parse fails it falls back to `json_object` mode; if that also
fails it performs a plain chat call and permissively extracts the span from
the first `{` through the last `}`; the parse result of the first
successful rung is returned even when it is not an object, and `{}` is
returned only when the final extraction finds no span or its parse fails.
An error of the plain call itself propagates. -/
theorem C7_chat_json_ladder (call : ChatMode → Except Unit String) :
    (∀ raw v, call .strictSchema = .ok raw → jsonLoads (pyStrip raw) = some v →
      chatJson call = .ok v) ∧
    (∀ raw v,
      (call .strictSchema = .error () ∨
        (∃ r, call .strictSchema = .ok r ∧ jsonLoads (pyStrip r) = none)) →
      call .jsonObject = .ok raw → jsonLoads (pyStrip raw) = some v →
      chatJson call = .ok v) ∧
    (∀ raw,
      (call .strictSchema = .error () ∨
        (∃ r, call .strictSchema = .ok r ∧ jsonLoads (pyStrip r) = none)) →
      (call .jsonObject = .error () ∨
        (∃ r, call .jsonObject = .ok r ∧ jsonLoads (pyStrip r) = none)) →
      call .plain = .ok raw →
      chatJson call = .ok
        (match extractBraceSpan (pyStrip raw) with
         | none => .pdict []
         | some span => (jsonLoads span).getD (.pdict []))) ∧
    ((call .strictSchema = .error () ∨
        (∃ r, call .strictSchema = .ok r ∧ jsonLoads (pyStrip r) = none)) →
      (call .jsonObject = .error () ∨
        (∃ r, call .jsonObject = .ok r ∧ jsonLoads (pyStrip r) = none)) →
      call .plain = .error () →
      chatJson call = .error ()) := by
  have hfb2ok : ∀ raw, call .plain = .ok raw →
      chatJsonFallback2 call = .ok
        (match extractBraceSpan (pyStrip raw) with
         | none => .pdict []
         | some span => (jsonLoads span).getD (.pdict [])) := by
    intro raw hp
    unfold chatJsonFallback2
    rw [hp]
    dsimp only
    cases hspan : extractBraceSpan (pyStrip raw) with
    | none => rfl
    | some span =>
      cases hl : jsonLoads span with
      | none => simp [hl]
      | some v => simp [hl]
  have hfb2err : call .plain = .error () → chatJsonFallback2 call = .error () := by
    intro hp
    unfold chatJsonFallback2
    rw [hp]
  have hfb1 : (call .jsonObject = .error () ∨
      (∃ r, call .jsonObject = .ok r ∧ jsonLoads (pyStrip r) = none)) →
      chatJsonFallback1 call = chatJsonFallback2 call := by
    rintro (h | ⟨r, hr, hl⟩)
    · unfold chatJsonFallback1
      rw [h]
    · unfold chatJsonFallback1
      rw [hr]
      dsimp only
      rw [hl]
  have hto1 : (call .strictSchema = .error () ∨
      (∃ r, call .strictSchema = .ok r ∧ jsonLoads (pyStrip r) = none)) →
      chatJson call = chatJsonFallback1 call := by
    rintro (h | ⟨r, hr, hl⟩)
    · unfold chatJson
      rw [h]
    · unfold chatJson
      rw [hr]
      dsimp only
      rw [hl]
  refine ⟨?_, ?_, ?_, ?_⟩
  · intro raw v h1 h2
    unfold chatJson
    rw [h1]
    dsimp only
    rw [h2]
  · intro raw v hs h1 h2
    rw [hto1 hs]
    unfold chatJsonFallback1
    rw [h1]
    dsimp only
    rw [h2]
  · intro raw hs ho hp
    rw [hto1 hs, hfb1 ho]
    exact hfb2ok raw hp
  · intro hs ho hp
    rw [hto1 hs, hfb1 ho]
    exact hfb2err hp

theorem C7_chat_json_ladder_witness :
    chatJson (fun m =>
      match m with
      | .strictSchema => Except.error ()
      | .jsonObject => Except.ok "\x7b\"a\": 1\x7d"
      | .plain => Except.error ())
      = Except.ok (PyVal.pdict [("a", PyVal.pint 1)]) := by
  have h := (C7_chat_json_ladder (fun m =>
    match m with
    | .strictSchema => Except.error ()
    | .jsonObject => Except.ok "\x7b\"a\": 1\x7d"
    | .plain => Except.error ())).2.1
    "\x7b\"a\": 1\x7d" (PyVal.pdict [("a", PyVal.pint 1)])
    (Or.inl rfl) rfl rfl
  exact h

/-! ## Scenario DAG model (chat_app/schemas.py `ScenarioNode`) -/

inductive NodeType where
  | ntext | ntool | nif | nend
deriving Repr, DecidableEq, Inhabited

/-- `ScenarioNode`: `children`/`else_children` are `None`-or-list in the
source but every consumer immediately coerces with `or []`, so they are
plain lists here. -/
inductive ScenarioNode where
  | mk (id : String) (ntype : NodeType) (text : Option String) (tool : Option String)
      (condition : Option String) (children : List ScenarioNode)
      (elseChildren : List ScenarioNode)
deriving Repr, Inhabited

def ScenarioNode.id : ScenarioNode → String
  | .mk i _ _ _ _ _ _ => i

def ScenarioNode.ntype : ScenarioNode → NodeType
  | .mk _ t _ _ _ _ _ => t

def ScenarioNode.text : ScenarioNode → Option String
  | .mk _ _ tx _ _ _ _ => tx

def ScenarioNode.tool : ScenarioNode → Option String
  | .mk _ _ _ tl _ _ _ => tl

def ScenarioNode.condition : ScenarioNode → Option String
  | .mk _ _ _ _ c _ _ => c

def ScenarioNode.children : ScenarioNode → List ScenarioNode
  | .mk _ _ _ _ _ ch _ => ch

def ScenarioNode.elseChildren : ScenarioNode → List ScenarioNode
  | .mk _ _ _ _ _ _ ech => ech

/-! ## SGR static validation (chat_app/sgr/converter.py) -/

/-- `_has_actionable_nodes`: true iff some top-level node is text/tool/if.
(The source's recursive arm for nodes with children is unreachable: the
node type is a closed enum and `if` already returns, `end` continues.) -/
def hasActionableNodes (nodes : List ScenarioNode) : Bool :=
  nodes.any fun n =>
    n.ntype == NodeType.ntext || n.ntype == NodeType.ntool || n.ntype == NodeType.nif

/-- `_contains_if`: recursive through children and else_children. -/
def containsIf : List ScenarioNode → Bool
  | [] => false
  | ScenarioNode.mk _ t _ _ _ ch ech :: rest =>
    t == NodeType.nif || containsIf ch || containsIf ech || containsIf rest

/-- `_validate_scenario_or_raise`: the error message when validation fails,
none when it passes. -/
def validateScenarioOrRaise (code : List ScenarioNode) (inputText : String) : Option String :=
  if !(hasActionableNodes code) then
    some "scenario has no actionable nodes (only end or empty actions)"
  else if containsSub (ruLower inputText) "если" && !(containsIf code) then
    some "input contains 'если' but scenario has no if-nodes"
  else none

structure SgrError where
  trace_id : String
  failed_step : String
  error : String
deriving Repr, DecidableEq

/-- The static-validation stage of `sgr_convert_text`, applied to the
scenario assembled by the LLM chain: a validation failure is wrapped in the
structured conversion error carrying the trace id and the failed step
`10_static_validation`; otherwise the scenario is returned. (The template
reference check `_validate_templates` only records diagnostics and cannot
raise.) -/
def sgrConvertTextValidate (scenario : List ScenarioNode) (inputText traceId : String) :
    Except SgrError (List ScenarioNode) :=
  match validateScenarioOrRaise scenario inputText with
  | some msg =>
    .error { trace_id := traceId, failed_step := "10_static_validation", error := msg }
  | none => .ok scenario

/-- C8: static validation fails the conversion with the structured error
(failed step `10_static_validation`, carrying the trace id) exactly when
the assembled scenario has no actionable node, or the input text contains
the Russian conditional marker «если» (case-insensitively) while the
scenario has no `if` node; in all other cases it passes and the scenario is
returned. -/
theorem C8_static_validation (scenario : List ScenarioNode) (inputText traceId : String) :
    (hasActionableNodes scenario = false →
      ∃ msg, sgrConvertTextValidate scenario inputText traceId
        = .error { trace_id := traceId, failed_step := "10_static_validation",
                   error := msg }) ∧
    (hasActionableNodes scenario = true →
      containsSub (ruLower inputText) "если" = true → containsIf scenario = false →
      ∃ msg, sgrConvertTextValidate scenario inputText traceId
        = .error { trace_id := traceId, failed_step := "10_static_validation",
                   error := msg }) ∧
    (hasActionableNodes scenario = true →
      (containsSub (ruLower inputText) "если" = false ∨ containsIf scenario = true) →
      sgrConvertTextValidate scenario inputText traceId = .ok scenario) := by
  refine ⟨?_, ?_, ?_⟩
  · intro h
    refine ⟨"scenario has no actionable nodes (only end or empty actions)", ?_⟩
    unfold sgrConvertTextValidate validateScenarioOrRaise
    rw [h]
    rfl
  · intro h1 h2 h3
    refine ⟨"input contains 'если' but scenario has no if-nodes", ?_⟩
    unfold sgrConvertTextValidate validateScenarioOrRaise
    rw [h1, h2, h3]
    rfl
  · intro h1 h2
    unfold sgrConvertTextValidate validateScenarioOrRaise
    rw [h1]
    rcases h2 with h | h
    · rw [h]
      rfl
    · rw [h]
      simp

theorem C8_static_validation_witness :
    (∃ msg, sgrConvertTextValidate
        [ScenarioNode.mk "1" NodeType.nend none none none [] []] "Если да — скажи да" "tr1"
      = .error { trace_id := "tr1", failed_step := "10_static_validation",
                 error := msg }) ∧
    sgrConvertTextValidate
        [ScenarioNode.mk "1" NodeType.nif none none (some "Если да") [] []]
        "Если да — скажи да" "tr2"
      = .ok [ScenarioNode.mk "1" NodeType.nif none none (some "Если да") [] []] := by
  constructor
  · exact (C8_static_validation
      [ScenarioNode.mk "1" NodeType.nend none none none [] []]
      "Если да — скажи да" "tr1").1 rfl
  · exact (C8_static_validation
      [ScenarioNode.mk "1" NodeType.nif none none (some "Если да") [] []]
      "Если да — скажи да" "tr2").2.2 rfl (Or.inr (by simp [containsIf]))

/-! ## Scenario engine per-scenario execution
(scenario_engine.py `_try_eval_message_index_condition`, `run_scenario_map`) -/

/-- Python's `\w` (word character) for the alphabets the engine meets:
ASCII letters/digits, underscore, Cyrillic. -/
def isWordChar (c : Char) : Bool :=
  ('a' ≤ c && c ≤ 'z') || ('A' ≤ c && c ≤ 'Z') || c.isDigit || c == '_' ||
    (0x400 ≤ c.toNat && c.toNat ≤ 0x4FF)

/-- Case-insensitive literal match (`(?i)` on an ASCII pattern given in
lowercase); returns the remainder on success. -/
def matchCI : List Char → List Char → Option (List Char)
  | [], cs => some cs
  | _ :: _, [] => none
  | p :: ps, c :: cs => if ruLowerChar c = p then matchCI ps cs else none

inductive CmpOp where
  | ceq | cne | cle | cge | clt | cgt
deriving Repr, DecidableEq

/-- The operator alternation `(==|!=|<=|>=|<|>)` in its source order. -/
def matchOp : List Char → Option (CmpOp × List Char)
  | '=' :: '=' :: rest => some (.ceq, rest)
  | '!' :: '=' :: rest => some (.cne, rest)
  | '<' :: '=' :: rest => some (.cle, rest)
  | '>' :: '=' :: rest => some (.cge, rest)
  | '<' :: rest => some (.clt, rest)
  | '>' :: rest => some (.cgt, rest)
  | _ => none

def digitsToNat (ds : List Char) : Nat :=
  ds.foldl (fun acc c => acc * 10 + (c.toNat - 48)) 0

/-- `(?:dialog\.)?message_index\s*(==|!=|<=|>=|<|>)\s*(\d+)\b` matched at
the current position (the leading `\b` is checked by the caller). -/
def matchCore (cs : List Char) : Option (CmpOp × Nat) :=
  let afterKey : Option (List Char) :=
    match matchCI "dialog.message_index".toList cs with
    | some rest => some rest
    | none => matchCI "message_index".toList cs
  match afterKey with
  | none => none
  | some rest =>
    match matchOp (rest.dropWhile isPyWs) with
    | none => none
    | some (op, rest2) =>
      let rest3 := rest2.dropWhile isPyWs
      let digits := rest3.takeWhile Char.isDigit
      if digits.isEmpty then none
      else
        match (rest3.drop digits.length).head? with
        | some c => if isWordChar c then none else some (op, digitsToNat digits)
        | none => some (op, digitsToNat digits)

/-- `re.search`: leftmost position where the pattern (with its leading word
boundary) matches. -/
def searchCmp : Option Char → List Char → Option (CmpOp × Nat)
  | _, [] => none
  | prev, c :: rest =>
    let boundaryOk :=
      match prev with
      | none => true
      | some p => !(isWordChar p)
    if boundaryOk then
      match matchCore (c :: rest) with
      | some r => some r
      | none => searchCmp (some c) rest
    else searchCmp (some c) rest

def scanCmp (s : String) : Option (CmpOp × Nat) := searchCmp none s.toList

def ruNotFirstPhrase (lowered : String) : Bool :=
  containsSub lowered "не перв" && containsSub lowered "сообщ"

def ruFirstPhrase (lowered : String) : Bool :=
  containsSub lowered "перв" && containsSub lowered "сообщ"

def evalCmp (op : CmpOp) (idx : Int) (n : Nat) : Bool :=
  match op with
  | .ceq => decide (idx = (n : Int))
  | .cne => decide (idx ≠ (n : Int))
  | .clt => decide (idx < (n : Int))
  | .cle => decide (idx ≤ (n : Int))
  | .cgt => decide (idx > (n : Int))
  | .cge => decide (idx ≥ (n : Int))

/-- `_try_eval_message_index_condition`. -/
def tryEvalMessageIndexCondition (condition : String) (messageIndex : Int) :
    Option Bool :=
  let text := pyStrip condition
  if text = "" then none
  else
    let lowered := ruLower text
    if ruNotFirstPhrase lowered then some (decide (messageIndex ≠ 1))
    else if ruFirstPhrase lowered then some (decide (messageIndex = 1))
    else
      match scanCmp text with
      | some (op, n) => some (evalCmp op messageIndex n)
      | none => none

/-- Python `int(...)` on the values the backfill meets. -/
def toIntPy : PyVal → Option Int
  | .pint n => some n
  | .pbool b => some (if b then 1 else 0)
  | .pstr s =>
    let t := (pyStrip s).toList
    let core : Option (Bool × List Char) :=
      match t with
      | '-' :: ds => some (true, ds)
      | '+' :: ds => some (false, ds)
      | ds => some (false, ds)
    match core with
    | some (neg, ds) =>
      if ds ≠ [] ∧ ds.all Char.isDigit then
        some (if neg then -(digitsToNat ds : Int) else (digitsToNat ds : Int))
      else none
    | none => none
  | _ => none

/-- Per-scenario execution state: the shared `ConversationState`, the
accumulated `facts` (keyed `tool:<name>`) and `instruction_blocks`. -/
structure EngineState where
  conv : ConversationState
  facts : List (String × List (String × PyVal))
  blocks : List InstructionBlock
deriving Repr

def profileNameTruthy (p : UserProfile) : Bool :=
  match p.name with
  | some v => pyTruthy v
  | none => false

def toPyOpt : Option PyVal → Option PyVal
  | some .pnone => none
  | o => o

/-- `ensure_tool_data`: caches the tool call under `tool:<name>`; for
`get_user_data`, synthesizes the result from a populated profile or
backfills the profile from the tool result. `tools` is the registry oracle
(a failed tool yields an empty map). -/
def ensureToolData (tools : String → List (String × PyVal)) (st : EngineState)
    (toolName : String) : EngineState :=
  let key := "tool:" ++ toolName
  if (st.facts.lookup key).isSome then st
  else if toolName = "get_user_data" ∧ profileNameTruthy st.conv.user_profile
      ∧ st.conv.user_profile.age.isSome then
    { st with facts := st.facts ++
        [(key, [("name", (st.conv.user_profile.name).getD .pnone),
                ("age", (st.conv.user_profile.age).getD .pnone)])] }
  else
    let data := tools toolName
    let st1 := { st with facts := st.facts ++ [(key, data)] }
    if toolName = "get_user_data" then
      let profile := st1.conv.user_profile
      let name1 :=
        if profileNameTruthy profile then profile.name
        else toPyOpt (data.lookup "name")
      let age1 :=
        if profile.age.isNone then
          match toPyOpt (data.lookup "age") with
          | some v =>
            match toIntPy v with
            | some n => some (.pint n)
            | none => some v
          | none => none
        else profile.age
      { st1 with conv := { st1.conv with
          user_profile := { name := name1, age := age1 } } }
    else st1

/-- `{k.removeprefix("tool:"): v for k, v in facts.items()}`. -/
def stripToolKey (k : String) : String :=
  if startsWithChars ("tool:".toList) k.toList then String.mk (k.toList.drop 5) else k

def factsForRender (facts : List (String × List (String × PyVal))) :
    List (String × List (String × PyVal)) :=
  facts.map (fun kv => (stripToolKey kv.1, kv.2))

/-- `add_text_block`. -/
def addTextBlock (name : String) (st : EngineState) (nodeId text : String) :
    EngineState :=
  let rendered := renderTemplate text st.conv (factsForRender st.facts)
  { st with blocks := st.blocks ++
      [{ id := "scenario:" ++ name ++ ":text:" ++ nodeId, source := name,
         target := "agent", kind := "raw", priority := 10,
         text := some rendered, payload := none }] }

def renderBranchTexts (st : EngineState) (children : List ScenarioNode) : List String :=
  children.filterMap fun ch =>
    if ch.ntype == NodeType.ntext ∧ (ch.text.getD "") ≠ "" then
      some (renderTemplate (ch.text.getD "") st.conv (factsForRender st.facts))
    else none

/-- The `conditional/agent` block emitted for an undecided `if` node. -/
def condBlockOf (name : String) (st : EngineState) (node : ScenarioNode) :
    InstructionBlock :=
  { id := "scenario:" ++ name ++ ":if:" ++ node.id, source := name,
    target := "agent", kind := "conditional", priority := 10, text := none,
    payload := some
      { condition_id := node.id,
        condition := node.condition.getD "",
        when_true := renderBranchTexts st node.children,
        when_false := renderBranchTexts st node.elseChildren,
        condition_text := node.condition.getD "" } }

/-- The paired `rule/judge` block for an undecided `if` node. -/
def judgeRuleOf (name : String) (node : ScenarioNode) : InstructionBlock :=
  { id := "scenario:" ++ name ++ ":judge_rule:if:" ++ node.id, source := name,
    target := "judge", kind := "rule", priority := 10,
    text := some
      ("Проверь, что условные сценарные инструкции применены только при явном подтверждении в сообщении пользователя. "
        ++ "Не допускай применения when_false по умолчанию при неоднозначности.") }

/-- `add_conditional_program`: appends the conditional block and its judge
rule. -/
def addConditionalProgram (name : String) (st : EngineState) (node : ScenarioNode) :
    EngineState :=
  { st with blocks := st.blocks ++ [condBlockOf name st node, judgeRuleOf name node] }

/-- `_sort_key`: dotted id as an integer tuple, non-integers as 0. -/
def sortKey (n : ScenarioNode) : List Int :=
  (splitDot n.id.toList).map (fun p => (toIntPy (.pstr (String.mk p))).getD 0)

/-- Lexicographic comparison of Python int lists (prefix-shorter first). -/
def leKey : List Int → List Int → Bool
  | [], _ => true
  | _ :: _, [] => false
  | a :: as, b :: bs => a < b || (a == b && leKey as bs)

def sortNodes (nodes : List ScenarioNode) : List ScenarioNode :=
  nodes.mergeSort (fun a b => leKey (sortKey a) (sortKey b))

mutual

def nodeWeight : ScenarioNode → Nat
  | .mk _ _ _ _ _ ch ech => 1 + listWeight ch + listWeight ech

def listWeight : List ScenarioNode → Nat
  | [] => 0
  | n :: rest => nodeWeight n + listWeight rest

end

lemma listWeight_eq_sum (l : List ScenarioNode) :
    listWeight l = (l.map nodeWeight).sum := by
  induction l with
  | nil => rfl
  | cons n rest ih => simp [listWeight, ih]

lemma listWeight_sortNodes (l : List ScenarioNode) :
    listWeight (sortNodes l) = listWeight l := by
  rw [listWeight_eq_sum, listWeight_eq_sum]
  exact ((List.mergeSort_perm l _).map nodeWeight).sum_eq

lemma nodeWeight_eq (n : ScenarioNode) :
    nodeWeight n = 1 + listWeight n.children + listWeight n.elseChildren := by
  cases n
  rfl

lemma nodeWeight_pos (n : ScenarioNode) : 1 ≤ nodeWeight n := by
  rw [nodeWeight_eq]
  omega

mutual

/-- `process_nodes`: sorts the sequence by the integer tuple of the dotted
id, then processes in order (`end` halts the enclosing sequence, `tool`
caches facts, `text` emits a raw block, `if` is evaluated deterministically
when possible and otherwise emits the conditional + judge blocks). -/
def processNodes (tools : String → List (String × PyVal)) (name : String)
    (st : EngineState) (nodes : List ScenarioNode) : EngineState × Bool :=
  processSorted tools name st (sortNodes nodes)
termination_by (listWeight nodes, 1)
decreasing_by
  rw [listWeight_sortNodes]
  exact Prod.Lex.right _ (by omega)

def processSorted (tools : String → List (String × PyVal)) (name : String)
    (st : EngineState) : List ScenarioNode → EngineState × Bool
  | [] => (st, false)
  | n :: rest =>
    if n.ntype == NodeType.nend then (st, true)
    else if n.ntype == NodeType.ntool ∧ (n.tool.getD "") ≠ "" then
      processSorted tools name (ensureToolData tools st (n.tool.getD "")) rest
    else if n.ntype == NodeType.ntext ∧ (n.text.getD "") ≠ "" then
      processSorted tools name (addTextBlock name st n.id (n.text.getD "")) rest
    else if n.ntype == NodeType.nif then
      match tryEvalMessageIndexCondition (n.condition.getD "") st.conv.message_index with
      | some true =>
        let r := processNodes tools name st n.children
        if r.2 then (r.1, true) else processSorted tools name r.1 rest
      | some false =>
        let r := processNodes tools name st n.elseChildren
        if r.2 then (r.1, true) else processSorted tools name r.1 rest
      | none => processSorted tools name (addConditionalProgram name st n) rest
    else processSorted tools name st rest
termination_by l => (listWeight l, 0)
decreasing_by
  · exact Prod.Lex.left _ _ (by
      have := nodeWeight_pos n
      simp only [listWeight]
      omega)
  · exact Prod.Lex.left _ _ (by
      have := nodeWeight_pos n
      simp only [listWeight]
      omega)
  · exact Prod.Lex.left _ _ (by
      have h := nodeWeight_eq n
      simp only [listWeight]
      omega)
  · exact Prod.Lex.left _ _ (by
      have := nodeWeight_pos n
      simp only [listWeight]
      omega)
  · exact Prod.Lex.left _ _ (by
      have h := nodeWeight_eq n
      simp only [listWeight]
      omega)
  · exact Prod.Lex.left _ _ (by
      have := nodeWeight_pos n
      simp only [listWeight]
      omega)
  · exact Prod.Lex.left _ _ (by
      have := nodeWeight_pos n
      simp only [listWeight]
      omega)
  · exact Prod.Lex.left _ _ (by
      have := nodeWeight_pos n
      simp only [listWeight]
      omega)

end

lemma processSorted_nil (tools : String → List (String × PyVal)) (name : String)
    (st : EngineState) : processSorted tools name st [] = (st, false) := by
  rw [processSorted]

lemma processNodes_singleton_if (tools : String → List (String × PyVal)) (name : String)
    (st : EngineState) (node : ScenarioNode) (hif : node.ntype = NodeType.nif) :
    processNodes tools name st [node] =
      match tryEvalMessageIndexCondition (node.condition.getD "") st.conv.message_index with
      | some true => processNodes tools name st node.children
      | some false => processNodes tools name st node.elseChildren
      | none =>
        ({ st with blocks := st.blocks ++ [condBlockOf name st node, judgeRuleOf name node] },
          false) := by
  rw [processNodes, sortNodes, List.mergeSort_singleton]
  rw [processSorted]
  have h1 : (node.ntype == NodeType.nend) = false := by simp [hif]
  have h2 : ¬ ((node.ntype == NodeType.ntool) = true ∧ node.tool.getD "" ≠ "") := by
    simp [hif]
  have h3 : ¬ ((node.ntype == NodeType.ntext) = true ∧ node.text.getD "" ≠ "") := by
    simp [hif]
  have h4 : (node.ntype == NodeType.nif) = true := by simp [hif]
  rw [if_neg (by simp [h1]), if_neg h2, if_neg h3, if_pos h4]
  cases hev : tryEvalMessageIndexCondition (node.condition.getD "") st.conv.message_index with
  | none =>
    dsimp only
    rw [processSorted]
    rfl
  | some b =>
    cases b with
    | true =>
      dsimp only
      rw [processSorted_nil]
      cases hr2 : (processNodes tools name st node.children).2 with
      | true =>
        simp [hr2]
        rw [← hr2]
      | false =>
        simp [hr2]
        rw [← hr2]
    | false =>
      dsimp only
      rw [processSorted_nil]
      cases hr2 : (processNodes tools name st node.elseChildren).2 with
      | true =>
        simp [hr2]
        rw [← hr2]
      | false =>
        simp [hr2]
        rw [← hr2]

/-- C4: an `if` node's condition is evaluated deterministically iff it (once
stripped) contains the Russian first-message / not-first-message phrasing
or the regex `(?i)\b(?:dialog\.)?message_index\s*(==|!=|<=|>=|<|>)\s*(\d+)\b`
matches; the decided value is the corresponding comparison applied to
`state.message_index` (the Russian phrasings compare against 1, with
"не перв" checked first); and `process_nodes` recurses into the chosen
branch without emitting a conditional block when decided, while an
undecided condition emits the `conditional/agent` block plus its paired
`rule/judge` block. -/
theorem C4_deterministic_if (cond : String) (idx : Int) :
    ((tryEvalMessageIndexCondition cond idx).isSome = true ↔
      (pyStrip cond ≠ "" ∧
        (ruNotFirstPhrase (ruLower (pyStrip cond)) = true ∨
         ruFirstPhrase (ruLower (pyStrip cond)) = true ∨
         (scanCmp (pyStrip cond)).isSome = true))) ∧
    (ruNotFirstPhrase (ruLower (pyStrip cond)) = true →
      tryEvalMessageIndexCondition cond idx = some (decide (idx ≠ 1))) ∧
    (ruNotFirstPhrase (ruLower (pyStrip cond)) = false →
      ruFirstPhrase (ruLower (pyStrip cond)) = true →
      tryEvalMessageIndexCondition cond idx = some (decide (idx = 1))) ∧
    (∀ op n, ruNotFirstPhrase (ruLower (pyStrip cond)) = false →
      ruFirstPhrase (ruLower (pyStrip cond)) = false →
      scanCmp (pyStrip cond) = some (op, n) →
      tryEvalMessageIndexCondition cond idx = some (evalCmp op idx n)) ∧
    (∀ n : Nat,
      evalCmp .ceq idx n = decide (idx = (n : Int)) ∧
      evalCmp .cne idx n = decide (idx ≠ (n : Int)) ∧
      evalCmp .clt idx n = decide (idx < (n : Int)) ∧
      evalCmp .cle idx n = decide (idx ≤ (n : Int)) ∧
      evalCmp .cgt idx n = decide (idx > (n : Int)) ∧
      evalCmp .cge idx n = decide (idx ≥ (n : Int))) ∧
    (∀ (tools : String → List (String × PyVal)) (name : String)
        (st : EngineState) (node : ScenarioNode), node.ntype = NodeType.nif →
      st.conv.message_index = idx →
      (tryEvalMessageIndexCondition (node.condition.getD "") idx = some true →
        processNodes tools name st [node] = processNodes tools name st node.children) ∧
      (tryEvalMessageIndexCondition (node.condition.getD "") idx = some false →
        processNodes tools name st [node] = processNodes tools name st node.elseChildren) ∧
      (tryEvalMessageIndexCondition (node.condition.getD "") idx = none →
        processNodes tools name st [node] =
          ({ st with blocks := st.blocks
              ++ [condBlockOf name st node, judgeRuleOf name node] }, false))) := by
  have hmain : ∀ h0 : ¬ pyStrip cond = "",
      tryEvalMessageIndexCondition cond idx =
        (if ruNotFirstPhrase (ruLower (pyStrip cond)) then some (decide (idx ≠ 1))
         else if ruFirstPhrase (ruLower (pyStrip cond)) then some (decide (idx = 1))
         else
           match scanCmp (pyStrip cond) with
           | some (op, n) => some (evalCmp op idx n)
           | none => none) := by
    intro h0
    unfold tryEvalMessageIndexCondition
    rw [if_neg h0]
  refine ⟨?_, ?_, ?_, ?_, ?_, ?_⟩
  · by_cases h0 : pyStrip cond = ""
    · have hr1 : ruNotFirstPhrase (ruLower (pyStrip cond)) = false := by
        rw [h0]
        rfl
      have hr2 : ruFirstPhrase (ruLower (pyStrip cond)) = false := by
        rw [h0]
        rfl
      have hr3 : scanCmp (pyStrip cond) = none := by
        rw [h0]
        rfl
      unfold tryEvalMessageIndexCondition
      rw [if_pos h0]
      simp [h0, hr1, hr2, hr3]
    · rw [hmain h0]
      by_cases h1 : ruNotFirstPhrase (ruLower (pyStrip cond))
      · simp [h1, h0]
      · by_cases h2 : ruFirstPhrase (ruLower (pyStrip cond))
        · simp [h1, h2, h0]
        · cases h3 : scanCmp (pyStrip cond) with
          | none => simp [h1, h2, h3, h0]
          | some r => simp [h1, h2, h3, h0]
  · intro h1
    have h0 : ¬ pyStrip cond = "" := by
      intro h0
      rw [h0] at h1
      exact absurd h1 (by decide)
    rw [hmain h0, if_pos h1]
  · intro h1 h2
    have h0 : ¬ pyStrip cond = "" := by
      intro h0
      rw [h0] at h2
      exact absurd h2 (by decide)
    rw [hmain h0, if_neg (by simp [h1]), if_pos h2]
  · intro op n h1 h2 h3
    have h0 : ¬ pyStrip cond = "" := by
      intro h0
      rw [h0] at h3
      have hn : scanCmp "" = none := rfl
      rw [hn] at h3
      cases h3
    rw [hmain h0, if_neg (by simp [h1]), if_neg (by simp [h2]), h3]
  · intro n
    exact ⟨rfl, rfl, rfl, rfl, rfl, rfl⟩
  · intro tools name st node hif hidx
    refine ⟨?_, ?_, ?_⟩
    · intro hev
      rw [processNodes_singleton_if tools name st node hif, hidx, hev]
    · intro hev
      rw [processNodes_singleton_if tools name st node hif, hidx, hev]
    · intro hev
      rw [processNodes_singleton_if tools name st node hif, hidx, hev]

theorem C4_deterministic_if_witness :
    tryEvalMessageIndexCondition "dialog.message_index == 1" 1 = some true ∧
    tryEvalMessageIndexCondition "это не первое сообщение" 1 = some false ∧
    processNodes (fun _ => []) "s"
        { conv := { conversation_id := "c", message_index := 5 }, facts := [], blocks := [] }
        [ScenarioNode.mk "2" NodeType.nif none none (some "message_index == 1")
          [ScenarioNode.mk "2.1" NodeType.ntext (some "A") none none [] []] []]
      = processNodes (fun _ => []) "s"
          { conv := { conversation_id := "c", message_index := 5 }, facts := [], blocks := [] }
          [] := by
  refine ⟨?_, ?_, ?_⟩
  · have h := ((C4_deterministic_if "dialog.message_index == 1" 1).2.2.2.1)
      CmpOp.ceq 1 rfl rfl rfl
    rw [h]
    rfl
  · have h := ((C4_deterministic_if "это не первое сообщение" 1).2.1) rfl
    rw [h]
    rfl
  · have h := (((C4_deterministic_if "message_index == 1" 5).2.2.2.2.2)
      (fun _ => []) "s"
      { conv := { conversation_id := "c", message_index := 5 }, facts := [], blocks := [] }
      (ScenarioNode.mk "2" NodeType.nif none none (some "message_index == 1")
        [ScenarioNode.mk "2.1" NodeType.ntext (some "A") none none [] []] [])
      rfl rfl).2.1 rfl
    exact h

/-! ## Per-scenario summarize to imperatives
(tools_subgraph.py `scenario_summarize_to_imperatives`) -/

/-- `set(str(x) for x in (scenario_decisions.get(source) or []) if x)`:
only membership of this set is ever consulted. -/
def decisionsFor (sd : List (String × List String)) (src : String) : List String :=
  ((sd.lookup src).getD []).filter (fun x => x ≠ "")

/-- The enable-policy pair for one scenario name:
(enabled_for_summarize, enabled_overall) per the if/elif chain. -/
def enabledPair (sd : List (String × List String)) (swc : List String)
    (name : String) : Bool × Bool :=
  let dec := decisionsFor sd name
  if dec.contains "true" || dec.contains "false" then (true, true)
  else if dec.contains "unknown" then (false, true)
  else if !(swc.contains name) then (true, true)
  else (false, false)

/-- The pre-summarization filter over instruction blocks (skipped entirely
when no scenario produced a map result). -/
def summarizeFilter (names : List String) (sd : List (String × List String))
    (swc : List String) (blocks : List InstructionBlock) : List InstructionBlock :=
  if names.isEmpty then blocks
  else
    blocks.filter fun b =>
      let src := pyStrip b.source
      if names.contains src ∧ !(enabledPair sd swc src).2 then false
      else if names.contains src ∧ (enabledPair sd swc src).2
          ∧ !(enabledPair sd swc src).1
          ∧ b.target == "agent" ∧ b.kind == "raw" then false
      else true

def isRawAgentNonblank (b : InstructionBlock) : Bool :=
  b.target == "agent" && b.kind == "raw" && pyStrip (b.text.getD "") != ""

/-- `by_source` grouping of the raw texts (insertion-ordered dict of
stripped texts; empty sources group under `unknown_scenario`; sources of
scenarios not enabled for summarization are skipped). -/
def groupBySource (names : List String) (sd : List (String × List String))
    (swc : List String) (raws : List InstructionBlock) : List (String × List String) :=
  raws.foldl
    (fun acc b =>
      let src0 := pyStrip b.source
      let src := if src0 = "" then "unknown_scenario" else src0
      if !names.isEmpty ∧ names.contains src ∧ !(enabledPair sd swc src).1 then acc
      else appendAt acc src (pyStrip (b.text.getD "")))
    []

/-- `enumerate(start=i)` over texts turned into blocks. -/
def numberBlocksFrom (mk : Nat → String → InstructionBlock) (i : Nat) :
    List String → List InstructionBlock
  | [] => []
  | t :: ts => mk i t :: numberBlocksFrom mk (i + 1) ts

def impBlockMk (src : String) (i : Nat) (t : String) : InstructionBlock :=
  { id := "scenario:" ++ src ++ ":imperative:" ++ toString i, source := src,
    target := "agent", kind := "required", priority := 10, text := some t }

def ruleBlockMk (src : String) (i : Nat) (t : String) : InstructionBlock :=
  { id := "scenario:" ++ src ++ ":judge_rule:summarized:" ++ toString i, source := src,
    target := "judge", kind := "rule", priority := 10, text := some t }

/-- The blocks appended for one `by_source` group: up to 8 `required/agent`
imperatives (falling back to up to 3 original stripped lines when the
model's cleaned list is empty) and up to 8 `rule/judge` rules. `oracle`
supplies the parsed `chat_json` output lists (`summarize_one` already
coerces a non-dict reply to two empty lists). -/
def summBlocksFor (oracle : String → List String → (List PyVal × List PyVal))
    (g : String × List String) : List InstructionBlock :=
  let src := g.1
  let texts := g.2
  let r := oracle src texts
  let cleanedImps0 := (r.1.map (fun x => pyStrip (pyStrOf x))).filter (fun s => s ≠ "")
  let cleanedImps :=
    if cleanedImps0.isEmpty then ((texts.map pyStrip).filter (fun s => s ≠ "")).take 3
    else cleanedImps0
  let cleanedRules := (r.2.map (fun x => pyStrip (pyStrOf x))).filter (fun s => s ≠ "")
  numberBlocksFrom (impBlockMk src) 1 (cleanedImps.take 8)
    ++ numberBlocksFrom (ruleBlockMk src) 1 (cleanedRules.take 8)

/-- `applied`: the sorted distinct stripped sources (limited to scenario
names) of surviving `required/agent` blocks. -/
def appliedOf (names : List String) (blocks : List InstructionBlock) : List String :=
  sortDedup (blocks.filterMap fun b =>
    let src := pyStrip b.source
    if src ≠ "" ∧ names.contains src ∧ b.target == "agent" ∧ b.kind == "required" then
      some src
    else none)

structure SummarizeOut where
  blocks : List InstructionBlock
  applied : List String
deriving Repr

/-- `scenario_summarize_to_imperatives`: filter by the enable policy,
collect non-blank `raw/agent` blocks, and either pass through (rebuilding
`applied`) or replace all `raw/agent` blocks by the per-group compressed
imperatives and judge rules. -/
def scenarioSummarize (oracle : String → List String → (List PyVal × List PyVal))
    (blocks0 : List InstructionBlock) (sd : List (String × List String))
    (swc : List String) (names : List String) : SummarizeOut :=
  let filtered := summarizeFilter names sd swc blocks0
  let raws := filtered.filter isRawAgentNonblank
  if raws.isEmpty then
    { blocks := filtered, applied := appliedOf names filtered }
  else
    let bySource := groupBySource names sd swc raws
    let keep := filtered.filter (fun b => !(b.target == "agent" && b.kind == "raw"))
    let out := keep ++ bySource.flatMap (summBlocksFor oracle)
    { blocks := out, applied := appliedOf names out }

lemma numberBlocksFrom_mem (mk : Nat → String → InstructionBlock) :
    ∀ (i : Nat) (ts : List String) (b : InstructionBlock),
      b ∈ numberBlocksFrom mk i ts → ∃ j t, t ∈ ts ∧ b = mk j t := by
  intro i ts
  induction ts generalizing i with
  | nil => intro b hb; simp [numberBlocksFrom] at hb
  | cons t ts ih =>
    intro b hb
    rw [numberBlocksFrom] at hb
    rcases List.mem_cons.mp hb with h | h
    · exact ⟨i, t, by simp, h⟩
    · obtain ⟨j, t', ht', hb'⟩ := ih (i + 1) b h
      exact ⟨j, t', by simp [ht'], hb'⟩

lemma numberBlocksFrom_filter_all (mk : Nat → String → InstructionBlock)
    (p : InstructionBlock → Bool) (hall : ∀ i t, p (mk i t) = true) :
    ∀ (i : Nat) (ts : List String),
      (numberBlocksFrom mk i ts).filter p = numberBlocksFrom mk i ts := by
  intro i ts
  induction ts generalizing i with
  | nil => rfl
  | cons t ts ih =>
    rw [numberBlocksFrom, List.filter_cons]
    simp [hall i t, ih (i + 1)]

lemma numberBlocksFrom_filter_none (mk : Nat → String → InstructionBlock)
    (p : InstructionBlock → Bool) (hnone : ∀ i t, p (mk i t) = false) :
    ∀ (i : Nat) (ts : List String), (numberBlocksFrom mk i ts).filter p = [] := by
  intro i ts
  induction ts generalizing i with
  | nil => rfl
  | cons t ts ih =>
    rw [numberBlocksFrom, List.filter_cons]
    simp [hnone i t, ih (i + 1)]

lemma numberBlocksFrom_length (mk : Nat → String → InstructionBlock) :
    ∀ (i : Nat) (ts : List String), (numberBlocksFrom mk i ts).length = ts.length := by
  intro i ts
  induction ts generalizing i with
  | nil => rfl
  | cons t ts ih => rw [numberBlocksFrom]; simp [ih (i + 1)]

lemma numberBlocksFrom_map_text (src : String) :
    ∀ (i : Nat) (ts : List String),
      (numberBlocksFrom (impBlockMk src) i ts).map (fun b => b.text) = ts.map some := by
  intro i ts
  induction ts generalizing i with
  | nil => rfl
  | cons t ts ih => rw [numberBlocksFrom]; simp [impBlockMk, ih (i + 1)]

lemma mem_appliedOf (names : List String) (blocks : List InstructionBlock) (s : String) :
    s ∈ appliedOf names blocks ↔
      ∃ b ∈ blocks, pyStrip b.source = s ∧ s ≠ "" ∧ names.contains s = true ∧
        b.target = "agent" ∧ b.kind = "required" := by
  unfold appliedOf
  rw [mem_sortDedup, List.mem_filterMap]
  constructor
  · rintro ⟨b, hb, hsome⟩
    dsimp only at hsome
    split at hsome
    · rename_i hc
      injection hsome with hs
      obtain ⟨hc1, hc2, hc3, hc4⟩ := hc
      subst hs
      exact ⟨b, hb, rfl, hc1, hc2, by simpa using hc3, by simpa using hc4⟩
    · cases hsome
  · rintro ⟨b, hb, hsrc, hs, hc, ht, hk⟩
    refine ⟨b, hb, ?_⟩
    dsimp only
    rw [hsrc, if_pos ⟨hs, hc, by simp [ht], by simp [hk]⟩]

lemma scenarioSummarize_applied_eq
    (oracle : String → List String → (List PyVal × List PyVal))
    (blocks0 : List InstructionBlock) (sd : List (String × List String))
    (swc : List String) (names : List String) :
    (scenarioSummarize oracle blocks0 sd swc names).applied
      = appliedOf names (scenarioSummarize oracle blocks0 sd swc names).blocks := by
  unfold scenarioSummarize
  by_cases h : ((summarizeFilter names sd swc blocks0).filter isRawAgentNonblank).isEmpty
  · simp [h]
  · simp [h]

lemma scenarioSummarize_blocks_early
    (oracle : String → List String → (List PyVal × List PyVal))
    (blocks0 : List InstructionBlock) (sd : List (String × List String))
    (swc : List String) (names : List String)
    (h : ((summarizeFilter names sd swc blocks0).filter isRawAgentNonblank).isEmpty = true) :
    (scenarioSummarize oracle blocks0 sd swc names).blocks
      = summarizeFilter names sd swc blocks0 := by
  unfold scenarioSummarize
  simp [h]

lemma scenarioSummarize_blocks_main
    (oracle : String → List String → (List PyVal × List PyVal))
    (blocks0 : List InstructionBlock) (sd : List (String × List String))
    (swc : List String) (names : List String)
    (h : ((summarizeFilter names sd swc blocks0).filter isRawAgentNonblank).isEmpty = false) :
    (scenarioSummarize oracle blocks0 sd swc names).blocks
      = (summarizeFilter names sd swc blocks0).filter
          (fun b => !(b.target == "agent" && b.kind == "raw"))
        ++ (groupBySource names sd swc
              ((summarizeFilter names sd swc blocks0).filter isRawAgentNonblank)).flatMap
            (summBlocksFor oracle) := by
  unfold scenarioSummarize
  simp [h]

/-- C3 counterexample: a `raw/agent` block whose rendered text is blank
(here a single space, as a scenario `text` node with whitespace content
produces) is not collected into `raw_blocks` (the source requires
`(b.get("text") or "").strip()`), so the step exits early and the block
SURVIVES as a `raw/agent` block, contradicting the claim that no raw/agent
instruction blocks remain after summarization. -/
theorem C3_blank_raw_survives_counterexample :
    ((scenarioSummarize (fun _ _ => ([], []))
        [{ id := "scenario:s:text:1", source := "s", target := "agent", kind := "raw",
           priority := 10, text := some " ", payload := none }]
        [] [] ["s"]).blocks.filter
      (fun b => b.kind == "raw" && b.target == "agent"))
      = [{ id := "scenario:s:text:1", source := "s", target := "agent", kind := "raw",
           priority := 10, text := some " ", payload := none }] := rfl

/-- C3 (amended): after the summarize-to-imperatives step, no `raw/agent`
block with non-blank text remains (a blank-text raw block can survive via
the early exit); each group's raw blocks are replaced by at most 8
`required/agent` imperatives and at most 8 `rule/judge` rules, and when the
model's cleaned imperative list is empty, the imperatives are exactly up to
3 original (stripped, non-blank) lines kept verbatim; and `applied` is
exactly the distinct set of scenario names (stripped block sources that are
scenario names) whose `required/agent` blocks survive. -/
theorem C3_summarize_imperatives
    (oracle : String → List String → (List PyVal × List PyVal))
    (blocks0 : List InstructionBlock) (sd : List (String × List String))
    (swc : List String) (names : List String) :
    (∀ b ∈ (scenarioSummarize oracle blocks0 sd swc names).blocks,
      b.target = "agent" → b.kind = "raw" → pyStrip (b.text.getD "") = "") ∧
    (∀ src texts,
      ((summBlocksFor oracle (src, texts)).filter (fun b => b.kind == "required")).length ≤ 8 ∧
      ((summBlocksFor oracle (src, texts)).filter (fun b => b.kind == "rule")).length ≤ 8 ∧
      ((((oracle src texts).1.map (fun x => pyStrip (pyStrOf x))).filter (fun s => s ≠ ""))
          = [] →
        ((summBlocksFor oracle (src, texts)).filter (fun b => b.kind == "required")).map
            (fun b => b.text)
          = (((texts.map pyStrip).filter (fun s => s ≠ "")).take 3).map some)) ∧
    (∀ s, s ∈ (scenarioSummarize oracle blocks0 sd swc names).applied ↔
      ∃ b ∈ (scenarioSummarize oracle blocks0 sd swc names).blocks,
        pyStrip b.source = s ∧ s ≠ "" ∧ names.contains s = true ∧
        b.target = "agent" ∧ b.kind = "required") := by
  refine ⟨?_, ?_, ?_⟩
  · intro b hb ht hk
    by_cases hr : ((summarizeFilter names sd swc blocks0).filter isRawAgentNonblank).isEmpty
    · rw [scenarioSummarize_blocks_early oracle blocks0 sd swc names hr] at hb
      by_contra hne
      have hmem : b ∈ (summarizeFilter names sd swc blocks0).filter isRawAgentNonblank := by
        rw [List.mem_filter]
        refine ⟨hb, ?_⟩
        unfold isRawAgentNonblank
        simp [ht, hk, hne]
      rw [List.isEmpty_iff] at hr
      rw [hr] at hmem
      simp at hmem
    · rw [scenarioSummarize_blocks_main oracle blocks0 sd swc names
        (by simpa using hr)] at hb
      rcases List.mem_append.mp hb with h | h
      · rw [List.mem_filter] at h
        have := h.2
        simp [ht, hk] at this
      · rw [List.mem_flatMap] at h
        obtain ⟨g, _, hbg⟩ := h
        unfold summBlocksFor at hbg
        simp only at hbg
        rcases List.mem_append.mp hbg with h2 | h2
        · obtain ⟨j, t, _, hb2⟩ := numberBlocksFrom_mem _ _ _ _ h2
          rw [hb2] at hk
          simp [impBlockMk] at hk
        · obtain ⟨j, t, _, hb2⟩ := numberBlocksFrom_mem _ _ _ _ h2
          rw [hb2] at hk
          simp [ruleBlockMk] at hk
  · intro src texts
    have hreq : ∀ (i : Nat) (t : String),
        ((fun b => b.kind == "required") (impBlockMk src i t)) = true := by
      intro i t
      rfl
    have hreqr : ∀ (i : Nat) (t : String),
        ((fun b => b.kind == "required") (ruleBlockMk src i t)) = false := by
      intro i t
      rfl
    have hrul : ∀ (i : Nat) (t : String),
        ((fun b => b.kind == "rule") (ruleBlockMk src i t)) = true := by
      intro i t
      rfl
    have hrulr : ∀ (i : Nat) (t : String),
        ((fun b => b.kind == "rule") (impBlockMk src i t)) = false := by
      intro i t
      rfl
    refine ⟨?_, ?_, ?_⟩
    · unfold summBlocksFor
      rw [List.filter_append,
        numberBlocksFrom_filter_all _ _ hreq,
        numberBlocksFrom_filter_none _ _ hreqr,
        List.append_nil, numberBlocksFrom_length]
      simp [List.length_take]
    · unfold summBlocksFor
      rw [List.filter_append,
        numberBlocksFrom_filter_none _ _ hrulr,
        numberBlocksFrom_filter_all _ _ hrul,
        List.nil_append, numberBlocksFrom_length]
      simp [List.length_take]
    · intro hempty
      unfold summBlocksFor
      rw [List.filter_append,
        numberBlocksFrom_filter_all _ _ hreq,
        numberBlocksFrom_filter_none _ _ hreqr,
        List.append_nil]
      have hie : (((oracle src texts).1.map (fun x => pyStrip (pyStrOf x))).filter
          (fun s => s ≠ "")).isEmpty = true := by
        rw [hempty]
        rfl
      simp only [hie, if_pos]
      rw [List.take_take]
      have h38 : (8 : Nat) ⊓ 3 = 3 := by norm_num
      rw [h38]
      have := numberBlocksFrom_map_text src 1
        ((((texts.map pyStrip).filter (fun s => s ≠ ""))).take 3)
      simpa using this
  · intro s
    rw [scenarioSummarize_applied_eq]
    exact mem_appliedOf names _ s

theorem C3_summarize_imperatives_witness :
    "s" ∈ (scenarioSummarize (fun _ _ => ([], []))
        [{ id := "scenario:s:imperative:1", source := "s", target := "agent",
           kind := "required", priority := 10, text := some "T", payload := none }]
        [] [] ["s"]).applied := by
  refine ((C3_summarize_imperatives (fun _ _ => ([], []))
      [{ id := "scenario:s:imperative:1", source := "s", target := "agent",
         kind := "required", priority := 10, text := some "T", payload := none }]
      [] [] ["s"]).2.2 "s").mpr ?_
  refine ⟨{ id := "scenario:s:imperative:1", source := "s", target := "agent",
            kind := "required", priority := 10, text := some "T", payload := none },
          ?_, rfl, by decide, rfl, rfl, rfl⟩
  rw [show (scenarioSummarize (fun _ _ => ([], []))
      [{ id := "scenario:s:imperative:1", source := "s", target := "agent",
         kind := "required", priority := 10, text := some "T", payload := none }]
      [] [] ["s"]).blocks
    = [{ id := "scenario:s:imperative:1", source := "s", target := "agent",
         kind := "required", priority := 10, text := some "T", payload := none }] from rfl]
  simp

end ChatCore
